import Mathlib

/-!
Formal verification of the mscan enrichment core (src/src/mscan).

This file shallowly embeds the code of the repository that the claims
C1 to C10 talk about:

  - src/src/mscan/utils/rate_limiter.py   (RateLimiter, AdaptiveRateLimiter)
  - src/src/mscan/enricher/cache_manager.py (CacheManager)
  - src/src/mscan/enricher/cik_lookup.py  (CIKLookup)
  - src/src/mscan/enricher/edgar_client.py (EdgarClient)
  - src/src/mscan/enricher/profile_builder.py (ProfileBuilder)

Modelling conventions.

  - Python strings are modelled as List Char (so that all string
    operations reduce in the kernel).  ASCII inputs are the intended
    domain; the Char predicates (isAlpha, isUpper, isAlphanum,
    isWhitespace) agree with the Python ones there.
  - Wall-clock timestamps are modelled by an arbitrary linearly ordered
    additive commutative group, so the theorems hold for rational or
    real valued clocks alike; witnesses instantiate it with Int.
  - Python float arithmetic on financial values and scores is modelled
    with Rat.  The Python builtin int() truncates toward zero (pyInt
    below) and round() rounds half to even (pyRound below).
  - datetime / SQLite rows are modelled by explicit state records, the
    shared clock is passed explicitly to each operation.
  - The blocking path of RateLimiter.acquire sleeps and re-evaluates
    under concurrency; only the deterministic single-step semantics
    (purge, test, grant or fail) that every acquire performs under the
    lock is embedded, which is all the claims quantify over.
-/

namespace MScan

/-- Python str literal helper: the List Char contents of a Lean string
literal. -/
def strL (s : String) : List Char := s.toList

/-- Python str.lower() (ASCII). -/
def pyLower (s : List Char) : List Char := s.map Char.toLower

/-- Python str.upper() (ASCII). -/
def pyUpper (s : List Char) : List Char := s.map Char.toUpper

/-- Python str.strip(): remove leading and trailing whitespace. -/
def pyStrip (s : List Char) : List Char :=
  ((s.dropWhile Char.isWhitespace).reverse.dropWhile Char.isWhitespace).reverse

/-- Python str.isalnum(): nonempty and all characters alphanumeric. -/
def pyIsAlnum (s : List Char) : Bool :=
  !s.isEmpty && s.all Char.isAlphanum

/-- Python str.isupper(): at least one cased character and no cased
character is lowercase (digits are uncased). -/
def pyIsUpper (s : List Char) : Bool :=
  s.any Char.isAlpha && s.all (fun c => !c.isAlpha || c.isUpper)

/-- Python int() applied to a nonintegral number: truncation toward
zero. -/
def pyInt (q : Rat) : Int :=
  if q < 0 then -(Int.floor (-q)) else Int.floor q

/-- Round half to even to the nearest integer, the rounding used by the
Python builtin round(). -/
def roundHalfEven (q : Rat) : Int :=
  let f := Int.floor q
  let r := q - (f : Rat)
  if r < 1/2 then f
  else if 1/2 < r then f + 1
  else if f % 2 = 0 then f else f + 1

/-- Python round(q, ndigits) on exact rational input. -/
def pyRound (q : Rat) (ndigits : Nat) : Rat :=
  let m : Int := (10 : Int) ^ ndigits
  (roundHalfEven (q * (m : Rat)) : Rat) / (m : Rat)

/-- First value of an association list (a Python dict in insertion
order) at a key, like dict.get(key). -/
def assocFind (l : List (List Char × List Char)) (k : List Char) :
    Option (List Char) :=
  (l.find? (fun p => p.1 = k)).map (fun p => p.2)

/-- dict.get(key, default). -/
def assocFindD (l : List (List Char × List Char)) (k : List Char)
    (d : List Char) : List Char :=
  (assocFind l k).getD d

/-- rate_limiter.RateLimitStats (last_request_time and the delay total
carry clock values). -/
structure RateLimitStats (τ : Type) where
  total_requests : Nat
  delayed_requests : Nat
  total_delay_seconds : τ
  current_bucket_size : Nat
  last_request_time : Option τ
  deriving DecidableEq

/-- State of rate_limiter.RateLimiter: the configuration plus the deque
of timestamps of granted acquisitions (oldest first) and the stats
record. -/
structure RateLimiterState (τ : Type) where
  max_requests : Int
  window_seconds : τ
  requests : List τ
  stats : RateLimitStats τ
  deriving DecidableEq

/-- State of rate_limiter.AdaptiveRateLimiter: the base limiter state
plus the adaptive configuration and the consecutive-success counter. -/
structure AdaptiveRateLimiter (τ : Type) where
  base : RateLimiterState τ
  initial_max : Int
  min_requests : Int
  backoff_factor : Rat
  recovery_rate : Rat
  consecutive_successes : Nat

section RateLimiterModel

variable {τ : Type} [LinearOrderedAddCommGroup τ]

/-- The while-popleft loop of RateLimiter.acquire: timestamps strictly
older than the cutoff are removed from the front of the deque; an entry
exactly at the cutoff is kept. -/
def purgeExpired (cutoff : τ) (l : List τ) : List τ :=
  l.dropWhile (fun ts => decide (ts < cutoff))

/-- One evaluation of the body of RateLimiter.acquire at clock value
now.  In non-blocking mode this is the whole call: purge, then either
grant (recording now and updating the stats) or fail with no timestamp
recorded and the counters untouched. -/
def acquireNonBlocking (st : RateLimiterState τ) (now : τ) :
    Bool × RateLimiterState τ :=
  let cutoff := now - st.window_seconds
  let reqs := purgeExpired cutoff st.requests
  if (reqs.length : Int) < st.max_requests then
    (true,
     { st with
        requests := reqs ++ [now],
        stats :=
          { st.stats with
              total_requests := st.stats.total_requests + 1,
              last_request_time := some now,
              current_bucket_size := reqs.length + 1 } })
  else
    (false, { st with requests := reqs })

/-- n successive non-blocking acquire calls, all at clock value now
(rapid succession), returning the list of grant results and the final
state. -/
def acquireSeq (st : RateLimiterState τ) (now : τ) :
    Nat → List Bool × RateLimiterState τ
  | 0 => ([], st)
  | n + 1 =>
    let r := acquireNonBlocking st now
    let rest := acquireSeq r.2 now n
    (r.1 :: rest.1, rest.2)

/-- AdaptiveRateLimiter.record_success: increment the success counter;
on the tenth consecutive success move the capacity toward the original
ceiling by the recovery rate (never above it) and reset the counter. -/
def record_success (st : AdaptiveRateLimiter τ) : AdaptiveRateLimiter τ :=
  let cs := st.consecutive_successes + 1
  if 10 ≤ cs then
    let current := st.base.max_requests
    let new_limit :=
      min st.initial_max
        (pyInt ((current : Rat) +
          ((st.initial_max : Rat) - (current : Rat)) * st.recovery_rate) + 1)
    { st with
        base := { st.base with max_requests := new_limit },
        consecutive_successes := 0 }
  else
    { st with consecutive_successes := cs }

/-- AdaptiveRateLimiter.record_rate_limit_error: reset the success
counter and shrink the capacity by the backoff factor, clamped at the
floor; the request history is cleared only when the capacity actually
decreased. -/
def record_rate_limit_error (st : AdaptiveRateLimiter τ) :
    AdaptiveRateLimiter τ :=
  let current := st.base.max_requests
  let new_limit := max st.min_requests (pyInt ((current : Rat) * st.backoff_factor))
  if new_limit < current then
    { st with
        base := { st.base with max_requests := new_limit, requests := [] },
        consecutive_successes := 0 }
  else
    { st with consecutive_successes := 0 }

/-- An external signal fed to the adaptive limiter. -/
inductive AdaptiveSignal
  | success
  | rateLimitError
  deriving DecidableEq

/-- Apply one external signal. -/
def applySignal (st : AdaptiveRateLimiter τ) :
    AdaptiveSignal → AdaptiveRateLimiter τ
  | .success => record_success st
  | .rateLimitError => record_rate_limit_error st

/-- Apply a whole sequence of external signals, oldest first. -/
def applySignals (st : AdaptiveRateLimiter τ) (l : List AdaptiveSignal) :
    AdaptiveRateLimiter τ :=
  l.foldl applySignal st

end RateLimiterModel

/-- cache_manager.CacheTier. -/
inductive CacheTier
  | entity_metadata
  | financials
  | filings_list
  | ticker_mapping
  | company_facts
  deriving DecidableEq

/-- cache_manager.CacheStats (the in-memory counters). -/
structure CacheStats where
  hits : Nat
  misses : Nat
  sets : Nat
  deletes : Nat
  evictions : Nat
  errors : Nat
  deriving DecidableEq

/-- One row of the edgar_cache table (cache_manager.CacheEntry).  The
payload type is abstract (JSON text in the source). -/
structure CacheEntry (τ α : Type) where
  key : List Char
  ticker : Option (List Char)
  company_name : Option (List Char)
  tier : CacheTier
  data : α
  expires_at : τ
  access_count : Nat
  last_accessed : Option τ

/-- State of cache_manager.CacheManager: the table rows plus the stats
counters.  default_ttl models the DEFAULT_TTL table (7 days, 30 days,
1 day, 7 days, 30 days in seconds) with the clock kept abstract. -/
structure CacheState (τ α : Type) where
  entries : List (CacheEntry τ α)
  default_ttl : CacheTier → τ
  stats : CacheStats

section CacheModel

variable {τ : Type} [LinearOrderedAddCommGroup τ] {α : Type}

/-- CacheManager.set at clock value now: resolve the TTL (an explicit
argument wins over the default of the tier), then INSERT OR REPLACE the
row for the key with access_count 0 and last_accessed NULL. -/
def cacheSet (st : CacheState τ α) (now : τ) (key : List Char) (data : α)
    (tier : CacheTier) (ttl_seconds : Option τ)
    (ticker company_name : Option (List Char)) : CacheState τ α :=
  let ttl := ttl_seconds.getD (st.default_ttl tier)
  let expires_at := now + ttl
  { st with
      entries :=
        st.entries.filter (fun e => e.key ≠ key) ++
          [{ key := key, ticker := ticker, company_name := company_name,
             tier := tier, data := data, expires_at := expires_at,
             access_count := 0, last_accessed := none }],
      stats := { st.stats with sets := st.stats.sets + 1 } }

/-- CacheManager.get at clock value now.  With check_expiry (the
default) the row is found only when expires_at is strictly in the
future; with check_expiry false the expiry is ignored.  A hit bumps the
access counters of the row and the hit counter, a miss bumps the miss
counter. -/
def cacheGet (st : CacheState τ α) (now : τ) (key : List Char)
    (check_expiry : Bool) : Option α × CacheState τ α :=
  let found := st.entries.find?
    (fun e => e.key = key && (!check_expiry || decide (now < e.expires_at)))
  match found with
  | some e =>
    (some e.data,
     { st with
        entries := st.entries.map (fun x =>
          if x.key = key then
            { x with access_count := e.access_count + 1,
                     last_accessed := some now }
          else x),
        stats := { st.stats with hits := st.stats.hits + 1 } })
  | none =>
    (none, { st with stats := { st.stats with misses := st.stats.misses + 1 } })

/-- CacheManager.cleanup_expired at clock value now: DELETE every row
with expires_at ≤ now, add the removed count to the eviction counter
and return it. -/
def cleanup_expired (st : CacheState τ α) (now : τ) : Nat × CacheState τ α :=
  let removed := (st.entries.filter (fun e => decide (e.expires_at ≤ now))).length
  (removed,
   { st with
      entries := st.entries.filter (fun e => decide (now < e.expires_at)),
      stats := { st.stats with evictions := st.stats.evictions + removed } })

end CacheModel

/-- One XBRL fact data point as consumed by
EdgarClient.extract_financial_metrics.  ISO end-dates compare
lexicographically, which on ISO strings is the chronological order, so
the end-date is modelled as a Nat preserving that order. -/
structure FactEntry where
  fp : List Char
  end_date : Nat
  val : Int
  fy : Nat
  deriving DecidableEq

/-- The units dictionary of one XBRL tag. -/
structure TagUnits where
  units : List (List Char × List FactEntry)
  deriving DecidableEq

/-- A facts namespace dictionary (us-gaap or dei), in insertion
order. -/
abbrev FactsDict := List (List Char × TagUnits)

/-- Python max(entries, key end-date): the first entry carrying the
maximal end-date. -/
def pyMaxByEnd (a : FactEntry) (rest : List FactEntry) : FactEntry :=
  rest.foldl (fun best x => if best.end_date < x.end_date then x else best) a

/-- The annual-period (fp == FY) entries of one tag under one unit; []
when the tag or the unit is absent. -/
def annualEntriesOf (data_dict : FactsDict) (unit tag : List Char) :
    List FactEntry :=
  match data_dict.find? (fun p => p.1 = tag) with
  | none => []
  | some p =>
    let units := ((p.2.units.find? (fun q => q.1 = unit)).map (fun q => q.2)).getD []
    units.filter (fun u => u.fp = strL "FY")

/-- The helper get_latest_annual of
EdgarClient.extract_financial_metrics: walk the synonym tags in
priority order and return, for the first tag whose annual-period list
under the unit is nonempty, the latest annual entry (by end-date)
together with the whole annual list; a tag that is absent or has zero
annual entries falls through to the next synonym. -/
def get_latest_annual (data_dict : FactsDict) (tags : List (List Char))
    (unit : List Char) : Option FactEntry × List FactEntry :=
  match tags with
  | [] => (none, [])
  | tag :: rest =>
    if (data_dict.find? (fun p => p.1 = tag)).isSome then
      match annualEntriesOf data_dict unit tag with
      | [] => get_latest_annual data_dict rest unit
      | a :: tl => (some (pyMaxByEnd a tl), a :: tl)
    else get_latest_annual data_dict rest unit

/-- Stable insertion of x into a list sorted descending by key: x goes
in front of the first element whose key is ≤ its own. -/
def insertDescBy {σ β : Type} [LinearOrder β] (key : σ → β) (x : σ) :
    List σ → List σ
  | [] => [x]
  | y :: ys => if key y ≤ key x then x :: y :: ys else y :: insertDescBy key x ys

/-- Python sorted(l, key, reverse=True): a stable sort descending by
key. -/
def sortDescBy {σ β : Type} [LinearOrder β] (key : σ → β) (l : List σ) :
    List σ :=
  l.foldr (insertDescBy key) []

/-- models.enriched_brand.FinancialMetrics (the fields
extract_financial_metrics fills; fiscal_year and period_end hold the fy
and end values of the latest revenue fact). -/
structure FinancialMetrics where
  revenue_usd : Option Int := none
  revenue_growth_yoy : Option Rat := none
  net_income_usd : Option Int := none
  total_assets_usd : Option Int := none
  marketing_spend_usd : Option Int := none
  rd_spend_usd : Option Int := none
  employee_count : Option Int := none
  fiscal_year : Option Nat := none
  period_end : Option Nat := none
  deriving DecidableEq

/-- The revenue synonym tag list of extract_financial_metrics. -/
def revenue_tags : List (List Char) :=
  [strL "Revenues",
   strL "RevenueFromContractWithCustomerExcludingAssessedTax",
   strL "SalesRevenueNet",
   strL "TotalRevenues"]

/-- The SG&A / marketing synonym tag list. -/
def sga_tags : List (List Char) :=
  [strL "SellingGeneralAndAdministrativeExpense",
   strL "SellingAndMarketingExpense"]

/-- EdgarClient.extract_financial_metrics over the us-gaap and dei
namespace dictionaries of a company-facts payload. -/
def extract_financial_metrics (us_gaap dei : FactsDict) : FinancialMetrics :=
  let rev := get_latest_annual us_gaap revenue_tags (strL "USD")
  let revenue_growth_yoy : Option Rat :=
    match rev.1 with
    | none => none
    | some _ =>
      if 2 ≤ rev.2.length then
        match sortDescBy (fun u => u.end_date) rev.2 with
        | current :: previous :: _ =>
          if previous.val ≠ 0 && decide (0 < previous.val) then
            some (pyRound
              (((current.val : Rat) - (previous.val : Rat)) /
                (previous.val : Rat) * 100) 2)
          else none
        | _ => none
      else none
  let ni := get_latest_annual us_gaap [strL "NetIncomeLoss"] (strL "USD")
  let assets := get_latest_annual us_gaap [strL "Assets"] (strL "USD")
  let sga := get_latest_annual us_gaap sga_tags (strL "USD")
  let rd := get_latest_annual us_gaap
    [strL "ResearchAndDevelopmentExpense"] (strL "USD")
  let employee_count : Option Int :=
    match dei.find? (fun p => p.1 = strL "EntityNumberOfEmployees") with
    | none => none
    | some p =>
      let units :=
        ((p.2.units.find? (fun q => q.1 = strL "shares")).map (fun q => q.2)).getD []
      match units with
      | [] => none
      | u :: us => some ((pyMaxByEnd u us).val)
  { revenue_usd := rev.1.map (fun d => d.val),
    revenue_growth_yoy := revenue_growth_yoy,
    net_income_usd := ni.1.map (fun d => d.val),
    total_assets_usd := assets.1.map (fun d => d.val),
    marketing_spend_usd := sga.1.map (fun d => d.val),
    rd_spend_usd := rd.1.map (fun d => d.val),
    employee_count := employee_count,
    fiscal_year := rev.1.map (fun d => d.fy),
    period_end := rev.1.map (fun d => d.end_date) }

/-- Python truthiness of an optional integer field: None and 0 are
falsy. -/
def pyTruthyInt (o : Option Int) : Bool :=
  match o with
  | some v => v ≠ 0
  | none => false

/-- ProfileBuilder.REVENUE_TIERS. -/
def REVENUE_TIERS : List (Int × Int) :=
  [(1000000000000, 100),
   (100000000000, 90),
   (10000000000, 80),
   (1000000000, 70),
   (500000000, 60),
   (100000000, 50),
   (10000000, 40),
   (1000000, 30)]

/-- ProfileBuilder.EMPLOYEE_TIERS. -/
def EMPLOYEE_TIERS : List (Int × Int) :=
  [(100000, 25),
   (10000, 20),
   (1000, 15),
   (100, 10)]

/-- ProfileBuilder.MARKETING_SPEND_TIERS (thresholds are ratios of
revenue). -/
def MARKETING_SPEND_TIERS : List (Rat × Int) :=
  [(0.20, 20),
   (0.10, 15),
   (0.05, 10),
   (0.02, 5)]

/-- The descending-table loop of _calculate_qualification_score: award
the points of the first (hence highest) satisfied threshold, at most
one tier per axis. -/
def tierScore (tiers : List (Int × Int)) (v : Int) : Int :=
  match tiers with
  | [] => 0
  | (threshold, points) :: rest =>
    if threshold ≤ v then points else tierScore rest v

/-- The same loop over ratio thresholds. -/
def ratioTierScore (tiers : List (Rat × Int)) (v : Rat) : Int :=
  match tiers with
  | [] => 0
  | (threshold, points) :: rest =>
    if threshold ≤ v then points else ratioTierScore rest v

/-- The revenue axis of _calculate_qualification_score. -/
def revenueAxis (financials : FinancialMetrics) : Int :=
  if pyTruthyInt financials.revenue_usd then
    tierScore REVENUE_TIERS (financials.revenue_usd.getD 0)
  else 0

/-- The headcount axis of _calculate_qualification_score. -/
def employeeAxis (financials : FinancialMetrics) : Int :=
  if pyTruthyInt financials.employee_count then
    tierScore EMPLOYEE_TIERS (financials.employee_count.getD 0)
  else 0

/-- The marketing-spend / revenue axis of
_calculate_qualification_score. -/
def marketingAxis (financials : FinancialMetrics) : Int :=
  if pyTruthyInt financials.marketing_spend_usd &&
      pyTruthyInt financials.revenue_usd then
    ratioTierScore MARKETING_SPEND_TIERS
      ((financials.marketing_spend_usd.getD 0 : Rat) /
       (financials.revenue_usd.getD 0 : Rat))
  else 0

/-- The R&D / revenue axis of _calculate_qualification_score (inline
if / elif chain with boundaries 20, 10 and 5 percent). -/
def rdAxis (financials : FinancialMetrics) : Int :=
  if pyTruthyInt financials.rd_spend_usd &&
      pyTruthyInt financials.revenue_usd then
    let rd_ratio : Rat :=
      (financials.rd_spend_usd.getD 0 : Rat) /
        (financials.revenue_usd.getD 0 : Rat)
    if 0.20 ≤ rd_ratio then 15
    else if 0.10 ≤ rd_ratio then 10
    else if 0.05 ≤ rd_ratio then 5
    else 0
  else 0

/-- ProfileBuilder._calculate_qualification_score.  A missing SEC
profile and a profile without latest financials both take the
technology-count branch (none here); otherwise the four axis scores are
accumulated and the result capped at 100. -/
def calculate_qualification_score (latest_financials : Option FinancialMetrics)
    (detected_technologies : Nat) : Int :=
  match latest_financials with
  | none => min ((detected_technologies : Int) * 5) 40
  | some financials =>
    min (revenueAxis financials + employeeAxis financials +
         marketingAxis financials + rdAxis financials) 100

/-- The exception values that can cross the module boundaries of the
source: the edgar_client exception hierarchy (NotFoundError,
RateLimitError, ServerError over EdgarAPIException), the transport
exceptions of requests, the cik_lookup hierarchy (TickerNotFoundError,
CompanyNotFoundError over CIKLookupError), and a catch-all for any
other Exception. -/
inductive PyExc
  | notFoundError (msg : List Char) (url : Option (List Char))
  | rateLimitError (msg : List Char) (status_code : Nat) (url : Option (List Char))
  | serverError (msg : List Char) (status_code : Option Nat) (url : Option (List Char))
  | requestException (msg : List Char)
  | tickerNotFound (msg : List Char)
  | companyNotFound (msg : List Char)
  | cikLookupError (msg : List Char)
  | otherExc (msg : List Char)
  deriving DecidableEq

/-- Python str(e): the message carried by the exception. -/
def excMessage : PyExc → List Char
  | .notFoundError m _ => m
  | .rateLimitError m _ _ => m
  | .serverError m _ _ => m
  | .requestException m => m
  | .tickerNotFound m => m
  | .companyNotFound m => m
  | .cikLookupError m => m
  | .otherExc m => m

/-- Membership in the edgar_client EdgarAPIException hierarchy. -/
def isEdgarAPIExc : PyExc → Bool
  | .notFoundError _ _ => true
  | .rateLimitError _ _ _ => true
  | .serverError _ _ _ => true
  | _ => false

/-- The retryable attribute set in EdgarAPIException.__init__: true for
status codes 429, 500, 502, 503 and 504, true when there is no status
code, and overridden to false by NotFoundError. -/
def excRetryable : PyExc → Bool
  | .notFoundError _ _ => false
  | .rateLimitError _ s _ =>
    s = 429 || s = 500 || s = 502 || s = 503 || s = 504
  | .serverError _ (some s) _ =>
    s = 429 || s = 500 || s = 502 || s = 503 || s = 504
  | .serverError _ none _ => true
  | _ => true

/-- cik_lookup.CompanyMatch. -/
structure CompanyMatch where
  cik : List Char
  ticker : List Char
  company_name : List Char
  match_score : Rat
  match_type : List Char
  deriving DecidableEq

/-- The in-memory mapping state of cik_lookup.CIKLookup after a
successful _load_mapping, each dictionary as an association list in
insertion order. -/
structure NameDirectory where
  ticker_to_cik : List (List Char × List Char)
  cik_to_ticker : List (List Char × List Char)
  company_names : List (List Char × List Char)
  name_to_cik : List (List Char × List Char)

/-- The difflib collaborators of CIKLookup.by_name:
SequenceMatcher(None, a, b).ratio() and
get_close_matches(word, pool, n, cutoff).  They are kept abstract (the
spec allows any equivalent normalized similarity metric); theorems that
need it assume that close_matches only returns members of its pool. -/
structure FuzzyOracle where
  similarity : List Char → List Char → Rat
  close_matches : List Char → List (List Char) → Nat → Rat → List (List Char)

/-- CIKLookup.MIN_MATCH_SCORE. -/
def MIN_MATCH_SCORE : Rat := 0.6

/-- The Python idiom min_score or MIN_MATCH_SCORE of by_name: None and
0.0 both fall back to the class default. -/
def resolveMinScore (m : Option Rat) : Rat :=
  match m with
  | some s => if s = 0 then MIN_MATCH_SCORE else s
  | none => MIN_MATCH_SCORE

/-- The legal-entity suffix words of CIKLookup._normalize_name, in
source order (each source pattern is backslash-s-plus word optional-dot
anchored at the end of the string). -/
def legal_suffixes : List (List Char) :=
  [strL "inc", strL "incorporated", strL "corp", strL "corporation",
   strL "llc", strL "ltd", strL "limited", strL "plc", strL "co",
   strL "company", strL "holdings", strL "group", strL "partnership",
   strL "lp", strL "llp"]

/-- One re.sub of a suffix pattern: if the string ends with the word
(optionally followed by a dot) preceded by at least one whitespace
character, drop the match; otherwise leave the string unchanged. -/
def stripOneSuffix (w : List Char) (s : List Char) : List Char :=
  let tryDrop : List Char → Option (List Char) := fun t =>
    if t.isSuffixOf s then
      let pre := s.take (s.length - t.length)
      let stripped := (pre.reverse.dropWhile Char.isWhitespace).reverse
      if stripped.length < pre.length then some stripped else none
    else none
  match tryDrop (w ++ [Char.ofNat 46]) with
  | some r => r
  | none => (tryDrop w).getD s

/-- Python str.split() with no argument: split on whitespace runs,
dropping empty fragments. -/
def splitWhitespace (s : List Char) : List (List Char) :=
  (s.foldr
    (fun c acc =>
      if c.isWhitespace then [] :: acc
      else
        match acc with
        | [] => [[c]]
        | w :: ws => (c :: w) :: ws)
    []).filter (fun w => w ≠ [])

/-- CIKLookup._normalize_name: lowercase, strip the legal-entity
suffixes in order, replace every character that is neither alphanumeric
nor underscore nor whitespace by a space, collapse whitespace. -/
def normalize_name (name : List Char) : List Char :=
  if name = [] then []
  else
    let lowered := pyLower name
    let unsuffixed := legal_suffixes.foldl (fun acc w => stripOneSuffix w acc) lowered
    let depunct := unsuffixed.map
      (fun c => if c.isAlphanum || c = '_' || c.isWhitespace then c else ' ')
    List.intercalate [' '] (splitWhitespace depunct)

/-- CIKLookup.by_ticker over a loaded mapping.  cache_by_ticker models
CacheManager.get_by_ticker, consulted only on the opt-in delisted
fallback. -/
def by_ticker (dir : NameDirectory) (ticker : List Char)
    (allow_delisted : Bool)
    (cache_by_ticker : List Char → Option (List Char)) :
    Except PyExc (List Char) :=
  let t := pyStrip (pyUpper ticker)
  if t = [] then .error (.tickerNotFound (strL "Empty ticker symbol"))
  else
    match assocFind dir.ticker_to_cik t with
    | some cik => .ok cik
    | none =>
      if allow_delisted then
        match cache_by_ticker t with
        | some cik => .ok cik
        | none => .error (.tickerNotFound (strL "Ticker not found"))
      else .error (.tickerNotFound (strL "Ticker not found"))

/-- The exact pass of CIKLookup.by_name: the loop over the directory
breaks at the first case-insensitive full-name match, giving at most
one candidate with score 1.0. -/
def exactMatches (dir : NameDirectory) (search_name : List Char) :
    List CompanyMatch :=
  match dir.company_names.find?
      (fun p => pyLower p.2 = pyLower search_name) with
  | some p =>
    [{ cik := p.1, ticker := assocFindD dir.cik_to_ticker p.1 [],
       company_name := p.2, match_score := 1, match_type := strL "exact" }]
  | none => []

/-- The normalized pass of CIKLookup.by_name: at most one candidate
with score 0.95 from the normalized-name dictionary. -/
def normalizedMatches (dir : NameDirectory) (normalized_search : List Char) :
    List CompanyMatch :=
  match assocFind dir.name_to_cik normalized_search with
  | some cik =>
    [{ cik := cik, ticker := assocFindD dir.cik_to_ticker cik [],
       company_name := assocFindD dir.company_names cik [],
       match_score := 0.95, match_type := strL "normalized" }]
  | none => []

/-- The body of the raw-name approximate loop of CIKLookup.by_name:
find the cik of the close match (first company with that name, skipped
when absent), score the lowered pair, skip candidates already collected
for that cik, keep the candidate only at or above the threshold. -/
def fuzzyRawStep (fz : FuzzyOracle) (dir : NameDirectory)
    (search_name : List Char) (min_score : Rat) (acc : List CompanyMatch)
    (match_name : List Char) : List CompanyMatch :=
  match dir.company_names.find? (fun p => p.2 = match_name) with
  | none => acc
  | some p =>
    let cik := p.1
    let score := fz.similarity (pyLower search_name) (pyLower match_name)
    if acc.any (fun m => m.cik = cik) then acc
    else if min_score ≤ score then
      acc ++
        [{ cik := cik, ticker := assocFindD dir.cik_to_ticker cik [],
           company_name := match_name,
           match_score := pyRound score 3, match_type := strL "fuzzy" }]
    else acc

/-- The body of the normalized-name approximate loop of
CIKLookup.by_name (the source indexes the dictionary directly, which
cannot fail because get_close_matches returns members of its pool; an
absent key is modelled as a skip). -/
def fuzzyNormStep (fz : FuzzyOracle) (dir : NameDirectory)
    (normalized_search : List Char) (min_score : Rat)
    (acc : List CompanyMatch) (norm_name : List Char) : List CompanyMatch :=
  match assocFind dir.name_to_cik norm_name with
  | none => acc
  | some cik =>
    if acc.any (fun m => m.cik = cik) then acc
    else
      let score := fz.similarity normalized_search norm_name
      if min_score ≤ score then
        acc ++
          [{ cik := cik, ticker := assocFindD dir.cik_to_ticker cik [],
             company_name := assocFindD dir.company_names cik [],
             match_score := pyRound score 3,
             match_type := strL "fuzzy_normalized" }]
      else acc

/-- The candidate list CIKLookup.by_name accumulates before sorting and
truncating (the variable called matches in the source): the exact pass
(loop with break, so at most the first case-insensitive full-name
match), then the normalized pass only when the exact pass found
nothing, then the two approximate passes, each run only while fewer
than limit candidates have been collected, each deduplicating against
the already collected candidates by cik and keeping only similarity at
or above the threshold. -/
def byNameCandidates (fz : FuzzyOracle) (dir : NameDirectory)
    (search_name : List Char) (limit : Nat) (min_score : Rat) :
    List CompanyMatch :=
  let normalized_search := normalize_name search_name
  let matches1 : List CompanyMatch := exactMatches dir search_name
  let matches2 : List CompanyMatch :=
    if matches1.isEmpty then normalizedMatches dir normalized_search
    else matches1
  let matches3 : List CompanyMatch :=
    if matches2.length < limit then
      let name_list := dir.company_names.map (fun p => p.2)
      let close := fz.close_matches search_name name_list (limit * 2)
        (min_score * 0.8)
      close.foldl (fuzzyRawStep fz dir search_name min_score) matches2
    else matches2
  if matches3.length < limit then
    let normalized_names := dir.name_to_cik.map (fun p => p.1)
    let closeN := fz.close_matches normalized_search normalized_names limit
      min_score
    closeN.foldl (fuzzyNormStep fz dir normalized_search min_score) matches3
  else matches3

/-- CIKLookup.by_name: reject an all-whitespace query, collect the
candidates, sort them stably by score descending, truncate to limit,
and raise CompanyNotFoundError when nothing is left. -/
def by_name (fz : FuzzyOracle) (dir : NameDirectory) (name : List Char)
    (limit : Nat) (min_score_arg : Option Rat) :
    Except PyExc (List CompanyMatch) :=
  let min_score := resolveMinScore min_score_arg
  if pyStrip name = [] then
    .error (.companyNotFound (strL "Empty company name"))
  else
    let search_name := pyStrip name
    let candidates := byNameCandidates fz dir search_name limit min_score
    let final := (sortDescBy (fun m => m.match_score) candidates).take limit
    if final = [] then
      .error (.companyNotFound (strL "No companies found matching"))
    else .ok final

/-- Modelled from the claim wording of C7 for comparison with by_name:
the three passes run unconditionally, their candidates are merged and
deduplicated by canonical id (first pass in pass order wins), sorted by
score descending, truncated to limit; NotFound when no candidate clears
the threshold. -/
def byNameSpecCandidates (fz : FuzzyOracle) (dir : NameDirectory)
    (search_name : List Char) (limit : Nat) (min_score : Rat) :
    List CompanyMatch :=
  let normalized_search := normalize_name search_name
  let matches1 : List CompanyMatch :=
    match dir.company_names.find?
        (fun p => pyLower p.2 = pyLower search_name) with
    | some p =>
      [{ cik := p.1, ticker := assocFindD dir.cik_to_ticker p.1 [],
         company_name := p.2, match_score := 1, match_type := strL "exact" }]
    | none => []
  let matches2 : List CompanyMatch :=
    match assocFind dir.name_to_cik normalized_search with
    | some cik =>
      if matches1.any (fun m => m.cik = cik) then matches1
      else
        matches1 ++
          [{ cik := cik, ticker := assocFindD dir.cik_to_ticker cik [],
             company_name := assocFindD dir.company_names cik [],
             match_score := 0.95, match_type := strL "normalized" }]
    | none => matches1
  let matches3 : List CompanyMatch :=
    let name_list := dir.company_names.map (fun p => p.2)
    let close := fz.close_matches search_name name_list (limit * 2)
      (min_score * 0.8)
    close.foldl (fuzzyRawStep fz dir search_name min_score) matches2
  let normalized_names := dir.name_to_cik.map (fun p => p.1)
  let closeN := fz.close_matches normalized_search normalized_names limit
    min_score
  closeN.foldl (fuzzyNormStep fz dir normalized_search min_score) matches3

/-- Modelled from the claim wording of C7: by_name with the merged
unconditional passes of byNameSpecCandidates. -/
def by_name_spec (fz : FuzzyOracle) (dir : NameDirectory) (name : List Char)
    (limit : Nat) (min_score_arg : Option Rat) :
    Except PyExc (List CompanyMatch) :=
  let min_score := resolveMinScore min_score_arg
  if pyStrip name = [] then
    .error (.companyNotFound (strL "Empty company name"))
  else
    let search_name := pyStrip name
    let candidates := byNameSpecCandidates fz dir search_name limit min_score
    let final := (sortDescBy (fun m => m.match_score) candidates).take limit
    if final = [] then
      .error (.companyNotFound (strL "No companies found matching"))
    else .ok final

/-- The is_likely_ticker heuristic of CIKLookup.resolve: at most five
characters, alphanumeric, and uppercase in the Python sense (at least
one cased character, no lowercase one). -/
def is_likely_ticker (s : List Char) : Bool :=
  decide (s.length ≤ 5) && pyIsAlnum s && pyIsUpper s

/-- Modelled from the claim wording of C8: a short token consisting of
fully uppercase alphabetic characters. -/
def is_likely_ticker_spec (s : List Char) : Bool :=
  decide (s.length ≤ 5) && !s.isEmpty && s.all (fun c => c.isAlpha && c.isUpper)

/-- The CompanyMatch resolve builds from a successful ticker lookup. -/
def tickerMatch (dir : NameDirectory) (identifier cik : List Char) :
    CompanyMatch :=
  { cik := cik, ticker := pyUpper identifier,
    company_name := assocFindD dir.company_names cik [],
    match_score := 1, match_type := strL "ticker" }

/-- CIKLookup.resolve: strip, reject empty, dispatch by the
is_likely_ticker heuristic.  Ticker-likely identifiers (with
prefer_ticker) try by_ticker and fall back to by_name (whose NotFound
propagates there, as in the source); everything else tries by_name,
catches its NotFound, falls back to by_ticker, and raises
CIKLookupError when both fail. -/
def resolve (fz : FuzzyOracle) (dir : NameDirectory) (identifier : List Char)
    (prefer_ticker : Bool) : Except PyExc CompanyMatch :=
  let id := pyStrip identifier
  if id = [] then .error (.cikLookupError (strL "Empty identifier"))
  else if is_likely_ticker id && prefer_ticker then
    match by_ticker dir id false (fun _ => none) with
    | .ok cik => .ok (tickerMatch dir id cik)
    | .error _ =>
      match by_name fz dir id 1 none with
      | .ok (m :: _) => .ok m
      | .ok [] => .error (.cikLookupError (strL "Could not resolve identifier"))
      | .error e => .error e
  else
    match by_name fz dir id 1 none with
    | .ok (m :: _) => .ok m
    | _ =>
      match by_ticker dir id false (fun _ => none) with
      | .ok cik => .ok (tickerMatch dir id cik)
      | .error _ =>
        .error (.cikLookupError (strL "Could not resolve identifier"))

/-- The observable outcome of one HTTP GET attempt inside
EdgarClient._make_request, with an abstract JSON body type. -/
inductive HTTPOutcome (α : Type)
  | status (code : Nat) (body : α)
  | timeout
  | transportError (msg : List Char)

/-- The classification chain in the _do_request closure of
EdgarClient._make_request: 403 and 429 raise RateLimitError, 404 raises
NotFoundError, 5xx raises ServerError, a transport timeout raises
ServerError with no status code, other transport failures propagate the
requests exception, raise_for_status turns the remaining 4xx into a
requests HTTPError, and everything else returns the parsed body. -/
def classifyResponse {α : Type} (url : Option (List Char)) :
    HTTPOutcome α → Except PyExc α
  | .status code body =>
    if code = 403 then
      .error (.rateLimitError (strL "Rate limit exceeded or blocked by SEC") 403 url)
    else if code = 404 then
      .error (.notFoundError (strL "Resource not found") url)
    else if code = 429 then
      .error (.rateLimitError (strL "Rate limit exceeded - too many requests") 429 url)
    else if 500 ≤ code then
      .error (.serverError (strL "SEC server error") (some code) url)
    else if 400 ≤ code then
      .error (.requestException (strL "HTTPError"))
    else .ok body
  | .timeout => .error (.serverError (strL "Request timeout") none url)
  | .transportError m => .error (.requestException m)

/-- The exception tuple of the backoff.on_exception decorator in
_make_request: only requests.RequestException and ServerError are retry
targets; any other exception propagates after the first attempt. -/
def backoffRetryTarget : PyExc → Bool
  | .requestException _ => true
  | .serverError _ _ _ => true
  | _ => false

/-- The giveup predicate of the backoff.on_exception decorator:
NotFoundError and RateLimitError always give up, as does any
EdgarAPIException whose retryable attribute is false. -/
def backoffGiveup (e : PyExc) : Bool :=
  (match e with
   | .notFoundError _ _ => true
   | .rateLimitError _ _ _ => true
   | _ => false) ||
  (isEdgarAPIExc e && !excRetryable e)

/-- The bounded retry loop of backoff.on_exception with max_tries total
attempts: run the attempt; on an exception that is a retry target, is
not a giveup case and still has tries left, try again, otherwise
propagate.  Returns the result together with the number of attempts
made.  The attempt index is threaded so that a fake transport can
answer differently per attempt. -/
def backoffRun {α : Type} (f : Nat → Except PyExc α) (i : Nat) :
    Nat → Except PyExc α × Nat
  | 0 => (f i, 1)
  | 1 => (f i, 1)
  | Nat.succ (Nat.succ fuel) =>
    match f i with
    | .ok a => (.ok a, 1)
    | .error e =>
      if backoffRetryTarget e && !backoffGiveup e then
        let r := backoffRun f (i + 1) (Nat.succ fuel)
        (r.1, r.2 + 1)
      else (.error e, 1)

/-- The cache-miss core of EdgarClient._make_request: the single HTTP
attempt (classifyResponse of the transport outcome of that attempt)
wrapped in the bounded exponential-backoff retry with max_retries total
tries.  The cache probe, RateGate.acquire and the write-back on success
do not alter which attempts are made or the classification, and are
modelled separately. -/
def make_request {α : Type} (outcomes : Nat → HTTPOutcome α)
    (max_retries : Nat) (url : Option (List Char)) :
    Except PyExc α × Nat :=
  backoffRun (fun i => classifyResponse url (outcomes i)) 0 max_retries

/-- models.enriched_brand.EdgarAPIError. -/
structure EdgarAPIError where
  error_type : List Char
  message : List Char
  status_code : Option Nat
  url : Option (List Char)
  retryable : Bool
  deriving DecidableEq

/-- The fields of models.enriched_brand.SECEntityMetadata that the
enrichment orchestration reads. -/
structure SECEntityMetadataM where
  entity_name : List Char
  tickers : List (List Char)
  exchanges : List (List Char)

/-- The fields of the SECProfile / EnrichedBrand pair that the claims
inspect (filing metadata and timestamps are carried along unchanged in
the source and omitted here). -/
structure SECProfileM where
  cik : List Char
  ticker : Option (List Char)
  company_name : List Char
  latest_financials : Option FinancialMetrics

/-- models.enriched_brand.EnrichedBrand, reduced to the fields the
claims inspect. -/
structure EnrichedBrandM where
  is_publicly_traded : Bool
  sec_profile : SECProfileM
  confidence_level : List Char
  data_completeness : Rat

/-- models.enriched_brand.EnrichmentResult (api-call and cache-hit
counters and the wall-clock duration are bookkeeping the claims do not
constrain and are omitted). -/
structure EnrichmentResult where
  success : Bool
  brand : Option EnrichedBrandM
  error : Option EdgarAPIError

/-- Python truthiness of an optional string. -/
def pyTruthyStr (o : Option (List Char)) : Bool :=
  match o with
  | some s => !s.isEmpty
  | none => false

/-- A failed EnrichmentResult with the given structured error. -/
def failedResult (error_type msg : List Char) (status_code : Option Nat)
    (url : Option (List Char)) (retryable : Bool) : EnrichmentResult :=
  { success := false, brand := none,
    error := some
      { error_type := error_type, message := msg, status_code := status_code,
        url := url, retryable := retryable } }

/-- EdgarClient.enrich_by_cik, with the outcomes of the two network
calls (get_submissions, whose exceptions reach the outer handlers, and
get_company_facts, whose exceptions are all swallowed into missing
financials) passed in as oracles.  A NotFoundError from get_submissions
becomes a not_found error result, any other exception becomes an
enrichment_error result, and the success path assembles the profile
with confidence high / completeness 0.8 when facts were extracted and
medium / 0.5 otherwise. -/
def enrich_by_cik (cik : List Char) (ticker_arg : Option (List Char))
    (subsRes : Except PyExc SECEntityMetadataM)
    (factsRes : Except PyExc (FactsDict × FactsDict)) : EnrichmentResult :=
  match subsRes with
  | .ok entity_meta =>
    let ticker :=
      if !pyTruthyStr ticker_arg && !entity_meta.tickers.isEmpty then
        entity_meta.tickers.head?
      else ticker_arg
    let financials : Option FinancialMetrics :=
      match factsRes with
      | .ok facts => some (extract_financial_metrics facts.1 facts.2)
      | .error _ => none
    let profile : SECProfileM :=
      { cik := cik, ticker := ticker,
        company_name := entity_meta.entity_name,
        latest_financials := financials }
    let brand : EnrichedBrandM :=
      { is_publicly_traded := true, sec_profile := profile,
        confidence_level :=
          if financials.isSome then strL "high" else strL "medium",
        data_completeness := if financials.isSome then 0.8 else 0.5 }
    { success := true, brand := some brand, error := none }
  | .error e =>
    match e with
    | .notFoundError m u => failedResult (strL "not_found") m (some 404) u false
    | _ => failedResult (strL "enrichment_error") (excMessage e) none none true

/-- EdgarClient.enrich_by_ticker: uppercase and strip the ticker,
resolve it through CIKLookup.by_ticker, enrich by the found cik; a
TickerNotFoundError becomes a non-retryable ticker_not_found result and
any other exception an enrichment_error result. -/
def enrich_by_ticker (dir : NameDirectory) (ticker : List Char)
    (subsOf : List Char → Except PyExc SECEntityMetadataM)
    (factsOf : List Char → Except PyExc (FactsDict × FactsDict)) :
    EnrichmentResult :=
  let t := pyStrip (pyUpper ticker)
  match by_ticker dir t false (fun _ => none) with
  | .ok cik => enrich_by_cik cik (some t) (subsOf cik) (factsOf cik)
  | .error (.tickerNotFound m) =>
    failedResult (strL "ticker_not_found") m none none false
  | .error e =>
    failedResult (strL "enrichment_error") (excMessage e) none none true

/-- The default of the min_confidence parameter of
EdgarClient.enrich_by_name. -/
def DEFAULT_MIN_CONFIDENCE : Rat := 0.8

/-- EdgarClient.enrich_by_name: strip the name, ask CIKLookup.by_name
for the single best match, fail with company_not_found when the
resolver finds nothing (empty list or CompanyNotFoundError), fail with
a non-retryable low_confidence error when the best match scores below
min_confidence, otherwise enrich by the matched cik and demote the
brand confidence to medium when the match was not exact. -/
def enrich_by_name (fz : FuzzyOracle) (dir : NameDirectory)
    (name : List Char) (min_confidence : Rat)
    (subsOf : List Char → Except PyExc SECEntityMetadataM)
    (factsOf : List Char → Except PyExc (FactsDict × FactsDict)) :
    EnrichmentResult :=
  let nm := pyStrip name
  match by_name fz dir nm 1 none with
  | .ok [] =>
    failedResult (strL "company_not_found")
      (strL "No companies found matching") none none false
  | .ok (best_match :: _) =>
    if best_match.match_score < min_confidence then
      failedResult (strL "low_confidence")
        (strL "Best match has low confidence") none none false
    else
      let result := enrich_by_cik best_match.cik (some best_match.ticker)
        (subsOf best_match.cik) (factsOf best_match.cik)
      if result.success && result.brand.isSome &&
          best_match.match_type ≠ strL "exact" then
        { result with
            brand := result.brand.map
              (fun b => { b with confidence_level := strL "medium" }) }
      else result
  | .error (.companyNotFound m) =>
    failedResult (strL "company_not_found") m none none false
  | .error e =>
    failedResult (strL "enrichment_error") (excMessage e) none none true

/-- Modelled from the claim wording of C8 for comparison with resolve:
the same dispatch with the fully-uppercase-alphabetic heuristic. -/
def resolve_spec (fz : FuzzyOracle) (dir : NameDirectory)
    (identifier : List Char) (prefer_ticker : Bool) :
    Except PyExc CompanyMatch :=
  let id := pyStrip identifier
  if id = [] then .error (.cikLookupError (strL "Empty identifier"))
  else if is_likely_ticker_spec id && prefer_ticker then
    match by_ticker dir id false (fun _ => none) with
    | .ok cik => .ok (tickerMatch dir id cik)
    | .error _ =>
      match by_name fz dir id 1 none with
      | .ok (m :: _) => .ok m
      | .ok [] => .error (.cikLookupError (strL "Could not resolve identifier"))
      | .error e => .error e
  else
    match by_name fz dir id 1 none with
    | .ok (m :: _) => .ok m
    | _ =>
      match by_ticker dir id false (fun _ => none) with
      | .ok cik => .ok (tickerMatch dir id cik)
      | .error _ =>
        .error (.cikLookupError (strL "Could not resolve identifier"))

/-- Concrete similarity collaborator used by the concrete instances
below: the exact difflib values of SequenceMatcher.ratio and
get_close_matches on the directory cexDir (best match first, ratio
2M/(len a + len b) with M the matched character total). -/
def cexFuzzy : FuzzyOracle where
  similarity := fun a b =>
    if a = strL "Acme Corporation" && b = strL "Acme Corporation Inc" then 8/9
    else if a = strL "acme corporation" && b = strL "acme corporation inc" then 8/9
    else if a = strL "acme corporation" && b = strL "acme corporatio" then 30/31
    else if a = b then 1 else 0
  close_matches := fun w _pool n _cutoff =>
    if w = strL "Acme Corporation" && n = 2 then
      [strL "Acme Corporatio", strL "Acme Corporation Inc"]
    else if w = strL "acme" && n = 1 then [strL "acme"]
    else []

/-- Concrete resolver directory: two companies whose normalized names
collide on the first and whose raw names are near-identical. -/
def cexDir : NameDirectory where
  ticker_to_cik := []
  cik_to_ticker := []
  company_names :=
    [(strL "0000000001", strL "Acme Corporation Inc"),
     (strL "0000000002", strL "Acme Corporatio")]
  name_to_cik :=
    [(strL "acme", strL "0000000001"),
     (strL "acme corporatio", strL "0000000002")]

/-- A trivial similarity collaborator for instances whose control path
never consults it. -/
def fzNone : FuzzyOracle where
  similarity := fun _ _ => 0
  close_matches := fun _ _ _ _ => []

/-- Concrete resolver directory for the dispatch counterexample: AB1 is
simultaneously a listed ticker of one company and the exact name of
another. -/
def cexDirT : NameDirectory where
  ticker_to_cik := [(strL "AB1", strL "0000000001")]
  cik_to_ticker := [(strL "0000000001", strL "AB1")]
  company_names := [(strL "0000000002", strL "AB1")]
  name_to_cik := [(strL "ab1", strL "0000000002")]

/-- Concrete similarity collaborator for the low-confidence instance:
the lowered query foq matches the only company name foo at ratio 0.7
(the difflib value 2 times 2 matched characters over 6). -/
def cexFuzzyLow : FuzzyOracle where
  similarity := fun a b => if a = strL "foq" && b = strL "foo" then 7/10 else 0
  close_matches := fun w _pool _n _cutoff =>
    if w = strL "Foq" then [strL "Foo"] else []

/-- Concrete us-gaap dictionary with two annual revenue facts: 100
(fiscal 2023) then 110 (fiscal 2024, most recent by end-date). -/
def cexRevFacts : FactsDict :=
  [(strL "Revenues",
    { units := [(strL "USD",
        [{ fp := strL "FY", end_date := 20230930, val := 100, fy := 2023 },
         { fp := strL "FY", end_date := 20240928, val := 110, fy := 2024 }])] })]

/-- Concrete us-gaap dictionary where the first revenue synonym tag
exists with zero annual entries and a later synonym has one annual
entry. -/
def cexSynFacts : FactsDict :=
  [(strL "Revenues",
    { units := [(strL "USD",
        [{ fp := strL "Q1", end_date := 5, val := 7, fy := 2020 }])] }),
   (strL "SalesRevenueNet",
    { units := [(strL "USD",
        [{ fp := strL "FY", end_date := 9, val := 42, fy := 2020 }])] })]

/-- Concrete adaptive limiter on an integer clock: capacity 8 of an
original ceiling 10, floor 1, backoff factor one half, recovery rate
one tenth, one recorded timestamp. -/
def cexAdaptive : AdaptiveRateLimiter Int where
  base :=
    { max_requests := 8, window_seconds := 1, requests := [5],
      stats :=
        { total_requests := 0, delayed_requests := 0,
          total_delay_seconds := 0, current_bucket_size := 0,
          last_request_time := none } }
  initial_max := 10
  min_requests := 1
  backoff_factor := 1/2
  recovery_rate := 1/10
  consecutive_successes := 0

/-- The same adaptive limiter with the capacity already at the
floor. -/
def cexAdaptiveFloor : AdaptiveRateLimiter Int :=
  { cexAdaptive with base := { cexAdaptive.base with max_requests := 1 } }

/-- Concrete resolver directory for the low-confidence instance. -/
def cexDirLow : NameDirectory where
  ticker_to_cik := []
  cik_to_ticker := [(strL "0000000009", strL "FOO")]
  company_names := [(strL "0000000009", strL "Foo")]
  name_to_cik := [(strL "foo", strL "0000000009")]

end MScan

namespace MScan

section Lemmas

variable {τ : Type} [LinearOrderedAddCommGroup τ]

theorem purgeExpired_of_forall_le {cutoff : τ} {l : List τ}
    (h : ∀ ts ∈ l, cutoff ≤ ts) : purgeExpired cutoff l = l := by
  cases l with
  | nil => rfl
  | cons a tl =>
    have ha : cutoff ≤ a := h a (List.mem_cons_self a tl)
    simp [purgeExpired, List.dropWhile, not_lt.mpr ha]

theorem purgeExpired_replicate_lt {cutoff t : τ} {k : Nat} (h : t < cutoff) :
    purgeExpired cutoff (List.replicate k t) = [] := by
  induction k with
  | zero => rfl
  | succ n ih =>
    have hstep :
        purgeExpired cutoff (t :: List.replicate n t) =
          purgeExpired cutoff (List.replicate n t) := by
      simp [purgeExpired, List.dropWhile, h]
    rw [List.replicate_succ, hstep, ih]

theorem acquire_grant_replicate {C : Int} {W t : τ} {k : Nat}
    {stats : RateLimitStats τ} (hW : 0 < W) (hk : (k : Int) < C) :
    acquireNonBlocking
        { max_requests := C, window_seconds := W,
          requests := List.replicate k t, stats := stats } t =
      (true,
       { max_requests := C, window_seconds := W,
         requests := List.replicate (k + 1) t,
         stats :=
           { stats with
              total_requests := stats.total_requests + 1,
              last_request_time := some t,
              current_bucket_size := k + 1 } }) := by
  have hmem : ∀ ts ∈ List.replicate k t, t - W ≤ ts := by
    intro ts hts
    have h1 : ts = t := List.eq_of_mem_replicate hts
    rw [h1]
    exact le_of_lt (sub_lt_self t hW)
  simp only [acquireNonBlocking, purgeExpired_of_forall_le hmem]
  rw [if_pos]
  · simp [List.replicate_succ']
  · simpa using hk

theorem acquireSeq_grant {C : Int} {W t : τ} (hW : 0 < W) :
    ∀ (n k : Nat) (stats : RateLimitStats τ), (k : Int) + n ≤ C →
      (acquireSeq
          { max_requests := C, window_seconds := W,
            requests := List.replicate k t, stats := stats } t n).1 =
        List.replicate n true ∧
      ∃ stats₂ : RateLimitStats τ,
        (acquireSeq
            { max_requests := C, window_seconds := W,
              requests := List.replicate k t, stats := stats } t n).2 =
          { max_requests := C, window_seconds := W,
            requests := List.replicate (k + n) t, stats := stats₂ } := by
  intro n
  induction n with
  | zero =>
    intro k stats _
    exact ⟨rfl, ⟨stats, by simp [acquireSeq]⟩⟩
  | succ m ih =>
    intro k stats hkC
    have hk : (k : Int) < C := by
      have : (k : Int) + 1 ≤ (k : Int) + (m + 1 : Nat) := by
        push_cast; omega
      omega
    have hstep := @acquire_grant_replicate τ _ C W t k stats hW hk
    have hrec := ih (k + 1)
      ({ stats with
          total_requests := stats.total_requests + 1,
          last_request_time := some t,
          current_bucket_size := k + 1 })
      (by push_cast at hkC ⊢; omega)
    simp only [acquireSeq, hstep]
    refine ⟨?_, ?_⟩
    · simpa [List.replicate_succ] using hrec.1
    · obtain ⟨stats₂, hst⟩ := hrec.2
      refine ⟨stats₂, ?_⟩
      rw [hst]
      have : k + 1 + m = k + (m + 1) := by omega
      simp [this]

theorem acquire_full_fails {C : Int} {W t u : τ} {k : Nat}
    {stats : RateLimitStats τ} (hfull : C ≤ (k : Int)) (hcut : u - W ≤ t) :
    acquireNonBlocking
        { max_requests := C, window_seconds := W,
          requests := List.replicate k t, stats := stats } u =
      (false,
       { max_requests := C, window_seconds := W,
         requests := List.replicate k t, stats := stats }) := by
  have hmem : ∀ ts ∈ List.replicate k t, u - W ≤ ts := by
    intro ts hts
    have h1 : ts = t := List.eq_of_mem_replicate hts
    rw [h1]
    exact hcut
  simp only [acquireNonBlocking, purgeExpired_of_forall_le hmem]
  rw [if_neg]
  simpa using hfull

end Lemmas

/-- C3: for a rate limiter with capacity C over window W starting
empty, C non-blocking acquisitions in rapid succession (all at clock
value t) are all granted; the following acquisition at t fails with no
timestamp recorded and the stats record untouched; a timestamp lying
exactly at the cutoff still occupies the window, so even at clock value
t + W (elapsed time exactly W) the acquisition still fails; and once
strictly more than W has elapsed an acquisition succeeds again.  This
is the claim as stated except at the window boundary: after exactly W
seconds the acquisition still fails (see the counterexample), so
recovery needs strictly more than W. -/
theorem c3_rategate_window {τ : Type} [LinearOrderedAddCommGroup τ]
    (C : Nat) (W t t1 : τ) (stats0 : RateLimitStats τ)
    (hC : 0 < C) (hW : 0 < W) :
    (acquireSeq
        { max_requests := (C : Int), window_seconds := W, requests := [],
          stats := stats0 } t C).1 = List.replicate C true ∧
    ∀ st1, st1 = (acquireSeq
        { max_requests := (C : Int), window_seconds := W, requests := [],
          stats := stats0 } t C).2 →
      st1.requests = List.replicate C t ∧
      (acquireNonBlocking st1 t).1 = false ∧
      (acquireNonBlocking st1 t).2.requests = st1.requests ∧
      (acquireNonBlocking st1 t).2.stats = st1.stats ∧
      (acquireNonBlocking st1 (t + W)).1 = false ∧
      (W < t1 - t → (acquireNonBlocking st1 t1).1 = true) := by
  have hmain := acquireSeq_grant (C := (C : Int)) (W := W) (t := t) hW C 0 stats0
    (by push_cast; omega)
  rw [List.replicate_zero] at hmain
  obtain ⟨stats₂, hst⟩ := hmain.2
  rw [Nat.zero_add] at hst
  refine ⟨hmain.1, ?_⟩
  intro st1 hst1
  subst hst1
  rw [hst]
  have hfail := @acquire_full_fails τ _ (C : Int) W t t C stats₂
    (le_refl _) (sub_le_self t (le_of_lt hW))
  have hfailW := @acquire_full_fails τ _ (C : Int) W t (t + W) C stats₂
    (le_refl _) (by simp)
  refine ⟨rfl, by simp [hfail], by simp [hfail], by simp [hfail],
    by simp [hfailW], ?_⟩
  intro hlate
  have h2 : W + t < t1 := lt_sub_iff_add_lt.mp hlate
  have hcut : t < t1 - W := lt_sub_iff_add_lt.mpr (by rw [add_comm]; exact h2)
  simp only [acquireNonBlocking]
  rw [purgeExpired_replicate_lt hcut]
  simp [Int.natCast_pos, hC]

/-- C3 witness: capacity 2 over window 10 on an integer clock; both
grants at time 0 succeed, the third acquisition at 0 fails cleanly,
time 10 still fails, time 11 succeeds. -/
theorem c3_rategate_window_witness :
    (0 : Nat) < 2 ∧ (0 : Int) < 10 ∧
    (acquireSeq
        { max_requests := ((2 : Nat) : Int), window_seconds := (10 : Int),
          requests := [],
          stats :=
            { total_requests := 0, delayed_requests := 0,
              total_delay_seconds := 0, current_bucket_size := 0,
              last_request_time := none } } 0 2).1 =
      List.replicate 2 true := by
  refine ⟨by norm_num, by norm_num, ?_⟩
  exact (c3_rategate_window 2 (10 : Int) 0 11
    { total_requests := 0, delayed_requests := 0, total_delay_seconds := 0,
      current_bucket_size := 0, last_request_time := none }
    (by norm_num) (by norm_num)).1

theorem find?_append_of_left_false {σ : Type} (p : σ → Bool)
    (l1 l2 : List σ) (h : ∀ a ∈ l1, p a = false) :
    (l1 ++ l2).find? p = l2.find? p := by
  induction l1 with
  | nil => rfl
  | cons a tl ih =>
    have ha : p a = false := h a (List.mem_cons_self a tl)
    simp only [List.cons_append, List.find?, ha]
    exact ih (fun x hx => h x (List.mem_cons_of_mem a hx))

theorem cleanup_length_split {τ α : Type} [LinearOrderedAddCommGroup τ]
    (l : List (CacheEntry τ α)) (u : τ) :
    (l.filter (fun e => decide (e.expires_at ≤ u))).length +
      (l.filter (fun e => decide (u < e.expires_at))).length = l.length := by
  induction l with
  | nil => rfl
  | cons a tl ih =>
    by_cases h : a.expires_at ≤ u
    · simp only [List.filter_cons]
      rw [if_pos (by simpa using h), if_neg (by simpa using not_lt.mpr h)]
      simp only [List.length_cons]
      omega
    · have h2 : u < a.expires_at := not_le.mp h
      simp only [List.filter_cons]
      rw [if_neg (by simpa using h), if_pos (by simpa using h2)]
      simp only [List.length_cons]
      omega

theorem insertDescBy_perm {σ β : Type} [LinearOrder β] (key : σ → β) (x : σ) :
    ∀ l : List σ, (insertDescBy key x l).Perm (x :: l) := by
  intro l
  induction l with
  | nil => exact List.Perm.refl _
  | cons y ys ih =>
    by_cases h : key y ≤ key x
    · simp only [insertDescBy, if_pos h]
      exact List.Perm.refl _
    · simp only [insertDescBy, if_neg h]
      exact (ih.cons y).trans (List.Perm.swap x y ys)

theorem sortDescBy_perm {σ β : Type} [LinearOrder β] (key : σ → β)
    (l : List σ) : (sortDescBy key l).Perm l := by
  induction l with
  | nil => exact List.Perm.refl _
  | cons a tl ih =>
    simp only [sortDescBy, List.foldr_cons]
    exact (insertDescBy_perm key a _).trans (ih.cons a)

theorem insertDescBy_pairwise {σ β : Type} [LinearOrder β] (key : σ → β)
    (x : σ) : ∀ l : List σ,
      List.Pairwise (fun a b => key b ≤ key a) l →
      List.Pairwise (fun a b => key b ≤ key a) (insertDescBy key x l) := by
  intro l
  induction l with
  | nil => intro _; simp [insertDescBy]
  | cons y ys ih =>
    intro hp
    rcases List.pairwise_cons.mp hp with ⟨hy, hys⟩
    by_cases h : key y ≤ key x
    · simp only [insertDescBy, if_pos h]
      refine List.pairwise_cons.mpr ⟨?_, hp⟩
      intro z hz
      rcases List.mem_cons.mp hz with hz1 | hz2
      · rw [hz1]; exact h
      · exact le_trans (hy z hz2) h
    · simp only [insertDescBy, if_neg h]
      refine List.pairwise_cons.mpr ⟨?_, ih hys⟩
      intro z hz
      have hz' : z = x ∨ z ∈ ys :=
        List.mem_cons.mp ((insertDescBy_perm key x ys).mem_iff.mp hz)
      rcases hz' with hz1 | hz2
      · rw [hz1]; exact le_of_lt (not_le.mp h)
      · exact hy z hz2

theorem sortDescBy_pairwise {σ β : Type} [LinearOrder β] (key : σ → β)
    (l : List σ) :
    List.Pairwise (fun a b => key b ≤ key a) (sortDescBy key l) := by
  induction l with
  | nil => simp [sortDescBy]
  | cons a tl ih =>
    simp only [sortDescBy, List.foldr_cons]
    exact insertDescBy_pairwise key a _ ih

theorem pyMaxByEnd_spec (a : FactEntry) :
    ∀ rest : List FactEntry,
      pyMaxByEnd a rest ∈ a :: rest ∧
      ∀ x ∈ a :: rest, x.end_date ≤ (pyMaxByEnd a rest).end_date := by
  have main : ∀ (rest : List FactEntry) (b : FactEntry),
      pyMaxByEnd b rest ∈ b :: rest ∧
      ∀ x ∈ b :: rest, x.end_date ≤ (pyMaxByEnd b rest).end_date := by
    intro rest
    induction rest with
    | nil =>
      intro b
      refine ⟨List.mem_singleton.mpr rfl, ?_⟩
      intro x hx
      rw [List.eq_of_mem_singleton hx]
      exact le_refl _
    | cons c tl ih =>
      intro b
      have hstep : pyMaxByEnd b (c :: tl) =
          pyMaxByEnd (if b.end_date < c.end_date then c else b) tl := rfl
      by_cases h : b.end_date < c.end_date
      · rw [hstep, if_pos h]
        rcases ih c with ⟨hmem, hge⟩
        refine ⟨?_, ?_⟩
        · rcases List.mem_cons.mp hmem with h1 | h2
          · rw [h1]; simp
          · simp [List.mem_cons, h2]
        · intro x hx
          rcases List.mem_cons.mp hx with h1 | h2
          · rw [h1]
            exact le_trans (le_of_lt h) (hge c (List.mem_cons_self c tl))
          · exact hge x h2
      · rw [hstep, if_neg h]
        rcases ih b with ⟨hmem, hge⟩
        refine ⟨?_, ?_⟩
        · rcases List.mem_cons.mp hmem with h1 | h2
          · rw [h1]; simp
          · simp [List.mem_cons, h2]
        · intro x hx
          rcases List.mem_cons.mp hx with h1 | h2
          · rw [h1]
            exact hge b (List.mem_cons_self b tl)
          · rcases List.mem_cons.mp h2 with h3 | h4
            · rw [h3]
              exact le_trans (not_lt.mp h) (hge b (List.mem_cons_self b tl))
            · exact hge x (List.mem_cons_of_mem b h4)
  intro rest
  exact main rest a

theorem get_latest_annual_char (d : FactsDict) (u : List Char) :
    ∀ tags : List (List Char),
      (get_latest_annual d tags u).2 =
        ((tags.map (fun t => annualEntriesOf d u t)).filter
          (fun l => !l.isEmpty)).headD [] ∧
      (get_latest_annual d tags u).1 =
        (match (get_latest_annual d tags u).2 with
         | [] => none
         | a :: tl => some (pyMaxByEnd a tl)) := by
  intro tags
  induction tags with
  | nil => exact ⟨rfl, rfl⟩
  | cons t rest ih =>
    rcases hf : d.find? (fun p => p.1 = t) with _ | p
    · have hann : annualEntriesOf d u t = [] := by
        simp [annualEntriesOf, hf]
      have hgla : get_latest_annual d (t :: rest) u =
          get_latest_annual d rest u := by
        simp [get_latest_annual, hf]
      rw [hgla]
      refine ⟨?_, ih.2⟩
      rw [ih.1]
      simp [hann]
    · have hsome : (d.find? (fun p => p.1 = t)).isSome = true := by
        rw [hf]; rfl
      rcases hann : annualEntriesOf d u t with _ | ⟨a, tl⟩
      · have hgla : get_latest_annual d (t :: rest) u =
            get_latest_annual d rest u := by
          rw [get_latest_annual, if_pos hsome, hann]
        rw [hgla]
        refine ⟨?_, ih.2⟩
        rw [ih.1]
        simp [hann]
      · have hgla : get_latest_annual d (t :: rest) u =
            (some (pyMaxByEnd a tl), a :: tl) := by
          rw [get_latest_annual, if_pos hsome, hann]
        rw [hgla]
        constructor
        · simp [hann]
        · rfl

theorem extract_growth_def (us_gaap dei : FactsDict) :
    (extract_financial_metrics us_gaap dei).revenue_growth_yoy =
      (match (get_latest_annual us_gaap revenue_tags (strL "USD")).1 with
       | none => none
       | some _ =>
         if 2 ≤ (get_latest_annual us_gaap revenue_tags (strL "USD")).2.length
         then
           match sortDescBy (fun x => x.end_date)
               (get_latest_annual us_gaap revenue_tags (strL "USD")).2 with
           | current :: previous :: _ =>
             if previous.val ≠ 0 && decide (0 < previous.val) then
               some (pyRound
                 (((current.val : Rat) - (previous.val : Rat)) /
                   (previous.val : Rat) * 100) 2)
             else none
           | _ => none
         else none) := rfl

theorem cexRevFacts_growth :
    (extract_financial_metrics cexRevFacts []).revenue_growth_yoy =
      some 10 := by
  rw [extract_growth_def]
  have h2 : get_latest_annual cexRevFacts revenue_tags (strL "USD") =
      (some { fp := strL "FY", end_date := 20240928, val := 110, fy := 2024 },
       [{ fp := strL "FY", end_date := 20230930, val := 100, fy := 2023 },
        { fp := strL "FY", end_date := 20240928, val := 110, fy := 2024 }]) := by
    decide
  rw [h2]
  have h3 : sortDescBy (fun x => x.end_date)
      [({ fp := strL "FY", end_date := 20230930, val := 100,
          fy := 2023 } : FactEntry),
       { fp := strL "FY", end_date := 20240928, val := 110, fy := 2024 }] =
      [{ fp := strL "FY", end_date := 20240928, val := 110, fy := 2024 },
       { fp := strL "FY", end_date := 20230930, val := 100, fy := 2023 }] := by
    decide
  simp only [h3]
  rw [if_pos (by norm_num)]
  rw [if_pos (by norm_num)]
  congr 1
  have hq : (((110 : Int) : Rat) - ((100 : Int) : Rat)) /
      ((100 : Int) : Rat) * 100 = 10 := by norm_num
  rw [hq]
  rw [pyRound, roundHalfEven]
  norm_num

theorem pyInt_le_int {q : Rat} {n : Int} (h0 : 0 ≤ q) (h : q ≤ (n : Rat)) :
    pyInt q ≤ n := by
  rw [pyInt, if_neg (not_lt.mpr h0)]
  calc Int.floor q ≤ Int.floor ((n : Rat)) := Int.floor_le_floor h
    _ = n := Int.floor_intCast n

theorem int_le_pyInt {q : Rat} {n : Int} (h0 : 0 ≤ n) (h : (n : Rat) ≤ q) :
    n ≤ pyInt q := by
  have hq : 0 ≤ q := le_trans (by exact_mod_cast h0) h
  rw [pyInt, if_neg (not_lt.mpr hq)]
  calc n = Int.floor ((n : Rat)) := (Int.floor_intCast n).symm
    _ ≤ Int.floor q := Int.floor_le_floor h

theorem applySignal_config_fields {τ : Type} (st : AdaptiveRateLimiter τ)
    (sig : AdaptiveSignal) :
    (applySignal st sig).min_requests = st.min_requests ∧
    (applySignal st sig).initial_max = st.initial_max ∧
    (applySignal st sig).backoff_factor = st.backoff_factor ∧
    (applySignal st sig).recovery_rate = st.recovery_rate := by
  cases sig with
  | success =>
    by_cases h10 : 10 ≤ st.consecutive_successes + 1 <;>
      simp [applySignal, record_success, h10]
  | rateLimitError =>
    by_cases hlt : max st.min_requests
        (pyInt ((st.base.max_requests : Rat) * st.backoff_factor)) <
        st.base.max_requests <;>
      simp [applySignal, record_rate_limit_error, hlt]

theorem adaptive_invariant_step {τ : Type} (st : AdaptiveRateLimiter τ)
    (hmin0 : 0 ≤ st.min_requests)
    (hmi : st.min_requests ≤ st.initial_max)
    (hbf0 : 0 ≤ st.backoff_factor) (hbf1 : st.backoff_factor ≤ 1)
    (hrr0 : 0 ≤ st.recovery_rate)
    (hlo : st.min_requests ≤ st.base.max_requests)
    (hhi : st.base.max_requests ≤ st.initial_max)
    (sig : AdaptiveSignal) :
    st.min_requests ≤ (applySignal st sig).base.max_requests ∧
    (applySignal st sig).base.max_requests ≤ st.initial_max := by
  have hcur0 : (0 : Int) ≤ st.base.max_requests := le_trans hmin0 hlo
  cases sig with
  | success =>
    by_cases h10 : 10 ≤ st.consecutive_successes + 1
    · have hx : (st.base.max_requests : Rat) ≤
          (st.base.max_requests : Rat) +
            ((st.initial_max : Rat) - (st.base.max_requests : Rat)) *
              st.recovery_rate := by
        have hn : (0 : Rat) ≤
            ((st.initial_max : Rat) - (st.base.max_requests : Rat)) *
              st.recovery_rate := by
          apply mul_nonneg _ hrr0
          rw [sub_nonneg]
          exact_mod_cast hhi
        linarith
      have hfl : st.base.max_requests ≤
          pyInt ((st.base.max_requests : Rat) +
            ((st.initial_max : Rat) - (st.base.max_requests : Rat)) *
              st.recovery_rate) :=
        int_le_pyInt hcur0 hx
      constructor
      · simp only [applySignal, record_success, if_pos h10]
        exact le_min hmi (by omega)
      · simp only [applySignal, record_success, if_pos h10]
        exact min_le_left _ _
    · simp only [applySignal, record_success, if_neg h10]
      exact ⟨hlo, hhi⟩
  | rateLimitError =>
    have hq0 : (0 : Rat) ≤ (st.base.max_requests : Rat) * st.backoff_factor := by
      apply mul_nonneg _ hbf0
      exact_mod_cast hcur0
    have hqle : (st.base.max_requests : Rat) * st.backoff_factor ≤
        (st.initial_max : Rat) := by
      have h1 : (st.base.max_requests : Rat) * st.backoff_factor ≤
          (st.base.max_requests : Rat) := by
        apply mul_le_of_le_one_right _ hbf1
        exact_mod_cast hcur0
      have h2 : (st.base.max_requests : Rat) ≤ (st.initial_max : Rat) := by
        exact_mod_cast hhi
      linarith
    have hnew_lo : st.min_requests ≤
        max st.min_requests
          (pyInt ((st.base.max_requests : Rat) * st.backoff_factor)) :=
      le_max_left _ _
    have hnew_hi :
        max st.min_requests
            (pyInt ((st.base.max_requests : Rat) * st.backoff_factor)) ≤
          st.initial_max :=
      max_le hmi (pyInt_le_int hq0 hqle)
    by_cases hlt : max st.min_requests
        (pyInt ((st.base.max_requests : Rat) * st.backoff_factor)) <
        st.base.max_requests
    · simp only [applySignal, record_rate_limit_error, if_pos hlt]
      exact ⟨hnew_lo, hnew_hi⟩
    · simp only [applySignal, record_rate_limit_error, if_neg hlt]
      exact ⟨hlo, hhi⟩

theorem adaptive_invariant_trace {τ : Type} :
    ∀ (sigs : List AdaptiveSignal) (st : AdaptiveRateLimiter τ),
      0 ≤ st.min_requests → st.min_requests ≤ st.initial_max →
      0 ≤ st.backoff_factor → st.backoff_factor ≤ 1 →
      0 ≤ st.recovery_rate →
      st.min_requests ≤ st.base.max_requests →
      st.base.max_requests ≤ st.initial_max →
      st.min_requests ≤ (applySignals st sigs).base.max_requests ∧
      (applySignals st sigs).base.max_requests ≤ st.initial_max := by
  intro sigs
  induction sigs with
  | nil =>
    intro st _ _ _ _ _ hlo hhi
    exact ⟨hlo, hhi⟩
  | cons sig rest ih =>
    intro st hmin0 hmi hbf0 hbf1 hrr0 hlo hhi
    have hstep := adaptive_invariant_step st hmin0 hmi hbf0 hbf1 hrr0 hlo hhi sig
    have hfields := applySignal_config_fields st sig
    have hrec := ih (applySignal st sig)
      (hfields.1 ▸ hmin0)
      (by rw [hfields.1, hfields.2.1]; exact hmi)
      (by rw [hfields.2.2.1]; exact hbf0)
      (by rw [hfields.2.2.1]; exact hbf1)
      (by rw [hfields.2.2.2]; exact hrr0)
      (by rw [hfields.1]; exact hstep.1)
      (by rw [hfields.2.1]; exact hstep.2)
    simp only [applySignals, List.foldl_cons] at *
    constructor
    · rw [← hfields.1]; exact hrec.1
    · rw [← hfields.2.1]; exact hrec.2

theorem cacheGet_set_same {τ : Type} [LinearOrderedAddCommGroup τ] {α : Type}
    (st : CacheState τ α) (now now' : τ) (k : List Char) (v : α)
    (tier : CacheTier) (ttl : τ) (tick cn : Option (List Char)) (ce : Bool) :
    (cacheGet (cacheSet st now k v tier (some ttl) tick cn) now' k ce).1 =
      if !ce || decide (now' < now + ttl) then some v else none := by
  have hleft : ∀ e ∈ st.entries.filter (fun e => decide (e.key ≠ k)),
      (decide (e.key = k) && (!ce || decide (now' < e.expires_at))) = false := by
    intro e he
    have hne : e.key ≠ k := by
      have := (List.mem_filter.mp he).2
      simpa using this
    simp [hne]
  simp only [cacheGet, cacheSet, Option.getD]
  rw [find?_append_of_left_false _ _ _ hleft]
  by_cases hc : (!ce || decide (now' < now + ttl)) = true
  · simp [List.find?, hc]
  · have hcf : (!ce || decide (now' < now + ttl)) = false := by
      revert hc
      cases !ce || decide (now' < now + ttl) <;> simp
    simp [List.find?, hcf]

/-- C9 (amended): under a sane configuration (0 ≤ floor ≤ original
ceiling, backoff factor and recovery rate in [0, 1]) and starting with
floor ≤ capacity ≤ ceiling, every sequence of external success and
rate-limit signals preserves floor ≤ capacity ≤ original ceiling; a
success signal changes the capacity only on the tenth consecutive
success; and a rate-limit signal shrinks the capacity to
max(floor, int(capacity times backoff factor)) and clears the recorded
window exactly when that new capacity is strictly lower — when the
capacity was already at the clamped value (for example already at the
floor) the window is left intact, which is the one deviation from the
claim as stated. -/
theorem c9_adaptive_backoff {τ : Type} (st : AdaptiveRateLimiter τ)
    (hmin0 : 0 ≤ st.min_requests)
    (hmi : st.min_requests ≤ st.initial_max)
    (hbf0 : 0 ≤ st.backoff_factor) (hbf1 : st.backoff_factor ≤ 1)
    (hrr0 : 0 ≤ st.recovery_rate)
    (hlo : st.min_requests ≤ st.base.max_requests)
    (hhi : st.base.max_requests ≤ st.initial_max) :
    (∀ sigs : List AdaptiveSignal,
      st.min_requests ≤ (applySignals st sigs).base.max_requests ∧
      (applySignals st sigs).base.max_requests ≤ st.initial_max) ∧
    (st.consecutive_successes + 1 < 10 →
      (record_success st).base.max_requests = st.base.max_requests) ∧
    ((record_rate_limit_error st).base.max_requests =
      if max st.min_requests
          (pyInt ((st.base.max_requests : Rat) * st.backoff_factor)) <
          st.base.max_requests then
        max st.min_requests
          (pyInt ((st.base.max_requests : Rat) * st.backoff_factor))
      else st.base.max_requests) ∧
    (max st.min_requests
        (pyInt ((st.base.max_requests : Rat) * st.backoff_factor)) <
        st.base.max_requests →
      (record_rate_limit_error st).base.requests = []) ∧
    (¬ max st.min_requests
        (pyInt ((st.base.max_requests : Rat) * st.backoff_factor)) <
        st.base.max_requests →
      (record_rate_limit_error st).base.requests = st.base.requests) := by
  refine ⟨?_, ?_, ?_, ?_, ?_⟩
  · intro sigs
    exact adaptive_invariant_trace sigs st hmin0 hmi hbf0 hbf1 hrr0 hlo hhi
  · intro hlt10
    have h10 : ¬ 10 ≤ st.consecutive_successes + 1 := by omega
    simp [record_success, h10]
  · by_cases hlt : max st.min_requests
        (pyInt ((st.base.max_requests : Rat) * st.backoff_factor)) <
        st.base.max_requests <;>
      simp [record_rate_limit_error, hlt]
  · intro hlt
    simp [record_rate_limit_error, hlt]
  · intro hlt
    simp [record_rate_limit_error, hlt]

/-- C9 witness: integer clock, floor 1, ceiling 10, backoff one half,
recovery one tenth, capacity 8 with one recorded timestamp; the
configuration hypotheses hold, a rate-limit signal then a success
signal keep the capacity within [1, 10], the first success signal after
a reset leaves the capacity at 8, and the rate-limit signal (8 shrinks
to 4 < 8) clears the window. -/
theorem c9_adaptive_backoff_witness :
    (0 ≤ cexAdaptive.min_requests ∧
     cexAdaptive.min_requests ≤ cexAdaptive.initial_max ∧
     0 ≤ cexAdaptive.backoff_factor ∧ cexAdaptive.backoff_factor ≤ 1 ∧
     0 ≤ cexAdaptive.recovery_rate ∧
     cexAdaptive.min_requests ≤ cexAdaptive.base.max_requests ∧
     cexAdaptive.base.max_requests ≤ cexAdaptive.initial_max) ∧
    (cexAdaptive.min_requests ≤
        (applySignals cexAdaptive
          [.rateLimitError, .success]).base.max_requests ∧
      (applySignals cexAdaptive
          [.rateLimitError, .success]).base.max_requests ≤
        cexAdaptive.initial_max) ∧
    (record_success cexAdaptive).base.max_requests =
      cexAdaptive.base.max_requests ∧
    (record_rate_limit_error cexAdaptive).base.requests = [] := by
  have h := c9_adaptive_backoff cexAdaptive
    (by norm_num [cexAdaptive]) (by norm_num [cexAdaptive])
    (by norm_num [cexAdaptive]) (by norm_num [cexAdaptive])
    (by norm_num [cexAdaptive]) (by norm_num [cexAdaptive])
    (by norm_num [cexAdaptive])
  refine ⟨⟨by norm_num [cexAdaptive], by norm_num [cexAdaptive],
      by norm_num [cexAdaptive], by norm_num [cexAdaptive],
      by norm_num [cexAdaptive], by norm_num [cexAdaptive],
      by norm_num [cexAdaptive]⟩,
    h.1 [.rateLimitError, .success],
    h.2.1 (by norm_num [cexAdaptive]), ?_⟩
  apply h.2.2.2.1
  have h48 : pyInt ((cexAdaptive.base.max_requests : Rat) *
      cexAdaptive.backoff_factor) = 4 := by
    show pyInt (((8 : Int) : Rat) * (1/2)) = 4
    rw [pyInt, if_neg (by norm_num)]
    norm_num [Int.floor_eq_iff]
  rw [h48]
  norm_num [cexAdaptive]

/-- C9 counterexample: the claim says every rate-limit signal clears
the recorded window, but with the capacity already at the floor
(capacity 1, floor 1, backoff one half) a rate-limit signal computes
max(1, int(0.5)) = 1, which is not a decrease, and leaves the recorded
timestamp in place. -/
theorem c9_adaptive_backoff_counterexample :
    (record_rate_limit_error cexAdaptiveFloor).base.requests = [5] ∧
    ([5] : List Int) ≠ [] := by
  constructor
  · have hp : pyInt ((1 : Rat) * (1/2)) = 0 := by
      rw [pyInt, if_neg (by norm_num)]
      norm_num [Int.floor_eq_iff]
    simp [record_rate_limit_error, cexAdaptiveFloor, cexAdaptive, hp]
  · simp

/-- C3 counterexample: the claim says an acquire succeeds again after
at least W seconds elapse, but with capacity 1 over window 10 a grant
at time 0 still blocks a non-blocking acquire at time 10, exactly W
seconds later, because a timestamp exactly at the cutoff still occupies
the window. -/
theorem c3_rategate_window_counterexample :
    (acquireNonBlocking
        { max_requests := 1, window_seconds := (10 : Int), requests := [],
          stats :=
            { total_requests := 0, delayed_requests := 0,
              total_delay_seconds := 0, current_bucket_size := 0,
              last_request_time := none } } 0).1 = true ∧
    (10 : Int) - 0 ≥ 10 ∧
    (acquireNonBlocking
        (acquireNonBlocking
          { max_requests := 1, window_seconds := (10 : Int), requests := [],
            stats :=
              { total_requests := 0, delayed_requests := 0,
                total_delay_seconds := 0, current_bucket_size := 0,
                last_request_time := none } } 0).2 10).1 = false := by
  refine ⟨by decide, by decide, by decide⟩

/-- C4: after set(k, v) with an explicit TTL at clock value now, a
normal get returns v at any clock value strictly before the expiry
now + ttl; at any clock value strictly past the expiry a normal get is
a miss while get with expiry ignored still returns v; and
cleanup_expired removes exactly the entries whose expiry has passed
(every surviving entry comes from the old table, an entry with
expires_at ≤ now is gone, an entry with now < expires_at survives) and
returns the removed count, which accounts for the whole table. -/
theorem c4_expiring_store {τ : Type} [LinearOrderedAddCommGroup τ] {α : Type}
    (st : CacheState τ α) (now now1 now2 : τ) (k : List Char) (v : α)
    (tier : CacheTier) (ttl : τ) (tick cn : Option (List Char)) :
    (now1 < now + ttl →
      (cacheGet (cacheSet st now k v tier (some ttl) tick cn) now1 k true).1 =
        some v) ∧
    (now + ttl < now2 →
      (cacheGet (cacheSet st now k v tier (some ttl) tick cn) now2 k true).1 =
        none ∧
      (cacheGet (cacheSet st now k v tier (some ttl) tick cn) now2 k false).1 =
        some v) ∧
    (∀ (st2 : CacheState τ α) (u : τ),
      (cleanup_expired st2 u).2.entries ⊆ st2.entries ∧
      (∀ e ∈ st2.entries,
        (e.expires_at ≤ u → e ∉ (cleanup_expired st2 u).2.entries) ∧
        (u < e.expires_at → e ∈ (cleanup_expired st2 u).2.entries)) ∧
      (cleanup_expired st2 u).1 + (cleanup_expired st2 u).2.entries.length =
        st2.entries.length) := by
  refine ⟨?_, ?_, ?_⟩
  · intro h
    rw [cacheGet_set_same]
    simp [h]
  · intro h
    have hnot : ¬ now2 < now + ttl := not_lt.mpr (le_of_lt h)
    constructor
    · rw [cacheGet_set_same]
      simp [hnot]
    · rw [cacheGet_set_same]
      simp
  · intro st2 u
    refine ⟨?_, ?_, ?_⟩
    · intro e he
      exact (List.mem_filter.mp he).1
    · intro e he
      constructor
      · intro hexp hmem
        have := (List.mem_filter.mp hmem).2
        simp only [decide_eq_true_eq] at this
        exact absurd this (not_lt.mpr hexp)
      · intro hlive
        exact List.mem_filter.mpr ⟨he, by simpa using hlive⟩
    · exact cleanup_length_split st2.entries u

/-- C4 witness: integer clock, empty store with zero default TTLs; set
k at time 0 with TTL 10, read back at 5, miss at 11 unless expiry is
ignored. -/
theorem c4_expiring_store_witness :
    ((5 : Int) < 0 + 10 ∧
      (cacheGet
        (cacheSet
          ({ entries := [], default_ttl := fun _ => 0,
             stats :=
               { hits := 0, misses := 0, sets := 0, deletes := 0,
                 evictions := 0, errors := 0 } } : CacheState Int Nat)
          0 (strL "cik") 7 CacheTier.entity_metadata (some 10) none none)
        5 (strL "cik") true).1 = some 7) ∧
    ((0 : Int) + 10 < 11 ∧
      (cacheGet
        (cacheSet
          ({ entries := [], default_ttl := fun _ => 0,
             stats :=
               { hits := 0, misses := 0, sets := 0, deletes := 0,
                 evictions := 0, errors := 0 } } : CacheState Int Nat)
          0 (strL "cik") 7 CacheTier.entity_metadata (some 10) none none)
        11 (strL "cik") true).1 = none ∧
      (cacheGet
        (cacheSet
          ({ entries := [], default_ttl := fun _ => 0,
             stats :=
               { hits := 0, misses := 0, sets := 0, deletes := 0,
                 evictions := 0, errors := 0 } } : CacheState Int Nat)
          0 (strL "cik") 7 CacheTier.entity_metadata (some 10) none none)
        11 (strL "cik") false).1 = some 7) := by
  have h := c4_expiring_store
    ({ entries := [], default_ttl := fun _ => 0,
       stats :=
         { hits := 0, misses := 0, sets := 0, deletes := 0,
           evictions := 0, errors := 0 } } : CacheState Int Nat)
    0 5 11 (strL "cik") 7 CacheTier.entity_metadata 10 none none
  refine ⟨⟨by norm_num, h.1 (by norm_num)⟩, by norm_num,
    (h.2.1 (by norm_num)).1, (h.2.1 (by norm_num)).2⟩

/-- C5: the extractor consults the synonym tags in priority order and
uses, for every metric, the history of the first tag with at least one
annual-period value (a tag that is absent or has zero annual entries
falls through); the latest value is the entry of maximal end-date; the
year-over-year growth is absent when fewer than two annual values
exist, is computed from the first two entries of the stable descending
sort of the history by end-date (a permutation of the history that is
sorted, hence the two most recent values), is absent when the baseline
is zero or negative, and equals round((current - previous) / previous *
100, 2) otherwise; on the concrete two-fact history 100 then 110 the
growth is exactly 10.0 percent, and a metric tag with zero annual
entries still populates the metric from its synonym. -/
theorem c5_metrics_extractor (us_gaap dei : FactsDict) :
    (∀ (tags : List (List Char)) (u : List Char),
      (get_latest_annual us_gaap tags u).2 =
        ((tags.map (fun t => annualEntriesOf us_gaap u t)).filter
          (fun l => !l.isEmpty)).headD [] ∧
      (get_latest_annual us_gaap tags u).1 =
        (match (get_latest_annual us_gaap tags u).2 with
         | [] => none
         | a :: tl => some (pyMaxByEnd a tl))) ∧
    (∀ (a : FactEntry) (tl : List FactEntry),
      pyMaxByEnd a tl ∈ a :: tl ∧
      ∀ x ∈ a :: tl, x.end_date ≤ (pyMaxByEnd a tl).end_date) ∧
    ((get_latest_annual us_gaap revenue_tags (strL "USD")).2.length < 2 →
      (extract_financial_metrics us_gaap dei).revenue_growth_yoy = none) ∧
    (sortDescBy (fun x => x.end_date)
        (get_latest_annual us_gaap revenue_tags (strL "USD")).2).Perm
      (get_latest_annual us_gaap revenue_tags (strL "USD")).2 ∧
    List.Pairwise (fun x y => y.end_date ≤ x.end_date)
      (sortDescBy (fun x => x.end_date)
        (get_latest_annual us_gaap revenue_tags (strL "USD")).2) ∧
    (∀ current previous rest,
      sortDescBy (fun x => x.end_date)
          (get_latest_annual us_gaap revenue_tags (strL "USD")).2 =
        current :: previous :: rest →
      (previous.val ≤ 0 →
        (extract_financial_metrics us_gaap dei).revenue_growth_yoy = none) ∧
      (0 < previous.val →
        (extract_financial_metrics us_gaap dei).revenue_growth_yoy =
          some (pyRound
            (((current.val : Rat) - (previous.val : Rat)) /
              (previous.val : Rat) * 100) 2))) ∧
    (extract_financial_metrics cexRevFacts []).revenue_growth_yoy =
      some 10 ∧
    (extract_financial_metrics cexSynFacts []).revenue_usd = some 42 := by
  refine ⟨fun tags u => get_latest_annual_char us_gaap u tags,
    fun a tl => pyMaxByEnd_spec a tl, ?_, sortDescBy_perm _ _,
    sortDescBy_pairwise _ _, ?_, cexRevFacts_growth, by decide⟩
  · intro hlt
    rw [extract_growth_def]
    rcases h1 : (get_latest_annual us_gaap revenue_tags (strL "USD")).1
      with _ | e
    · rfl
    · have h2 : ¬ 2 ≤
          (get_latest_annual us_gaap revenue_tags (strL "USD")).2.length := by
        omega
      simp only [if_neg h2]
  · intro current previous rest hsort
    have hlen : 2 ≤
        (get_latest_annual us_gaap revenue_tags (strL "USD")).2.length := by
      have hp := (sortDescBy_perm (fun x : FactEntry => x.end_date)
        (get_latest_annual us_gaap revenue_tags (strL "USD")).2).length_eq
      rw [hsort] at hp
      simp only [List.length_cons] at hp
      omega
    have hne : (get_latest_annual us_gaap revenue_tags (strL "USD")).2 ≠ [] := by
      intro hnil
      rw [hnil] at hlen
      simp at hlen
    obtain ⟨a, tl, hcons⟩ :
        ∃ a tl, (get_latest_annual us_gaap revenue_tags (strL "USD")).2 =
          a :: tl := by
      rcases hh : (get_latest_annual us_gaap revenue_tags (strL "USD")).2
        with _ | ⟨a, tl⟩
      · exact absurd hh hne
      · exact ⟨a, tl, rfl⟩
    have h1 : (get_latest_annual us_gaap revenue_tags (strL "USD")).1 =
        some (pyMaxByEnd a tl) := by
      rw [(get_latest_annual_char us_gaap (strL "USD") revenue_tags).2, hcons]
    constructor
    · intro hle
      rw [extract_growth_def, h1]
      simp only [if_pos hlen, hsort]
      rw [if_neg]
      simp only [Bool.and_eq_true, decide_eq_true_eq, ne_eq, not_and]
      intro _
      exact not_lt.mpr hle
    · intro hpos
      rw [extract_growth_def, h1]
      simp only [if_pos hlen, hsort]
      rw [if_pos]
      simp only [Bool.and_eq_true, decide_eq_true_eq, ne_eq]
      exact ⟨by omega, hpos⟩

theorem tierScore_nonneg (v : Int) :
    ∀ tiers : List (Int × Int), (∀ tp ∈ tiers, 0 ≤ tp.2) →
      0 ≤ tierScore tiers v := by
  intro tiers
  induction tiers with
  | nil => intro _; exact le_refl 0
  | cons tp rest ih =>
    intro h
    rcases tp with ⟨t, p⟩
    rw [tierScore]
    by_cases hc : t ≤ v
    · rw [if_pos hc]
      exact h (t, p) (List.mem_cons_self _ _)
    · rw [if_neg hc]
      exact ih (fun x hx => h x (List.mem_cons_of_mem _ hx))

theorem ratioTierScore_nonneg (v : Rat) :
    ∀ tiers : List (Rat × Int), (∀ tp ∈ tiers, 0 ≤ tp.2) →
      0 ≤ ratioTierScore tiers v := by
  intro tiers
  induction tiers with
  | nil => intro _; exact le_refl 0
  | cons tp rest ih =>
    intro h
    rcases tp with ⟨t, p⟩
    rw [ratioTierScore]
    by_cases hc : t ≤ v
    · rw [if_pos hc]
      exact h (t, p) (List.mem_cons_self _ _)
    · rw [if_neg hc]
      exact ih (fun x hx => h x (List.mem_cons_of_mem _ hx))

theorem revenueAxis_nonneg (fin : FinancialMetrics) : 0 ≤ revenueAxis fin := by
  rw [revenueAxis]
  split
  · exact tierScore_nonneg _ REVENUE_TIERS (by decide)
  · exact le_refl 0

theorem employeeAxis_nonneg (fin : FinancialMetrics) :
    0 ≤ employeeAxis fin := by
  rw [employeeAxis]
  split
  · exact tierScore_nonneg _ EMPLOYEE_TIERS (by decide)
  · exact le_refl 0

theorem marketingAxis_nonneg (fin : FinancialMetrics) :
    0 ≤ marketingAxis fin := by
  rw [marketingAxis]
  split
  · exact ratioTierScore_nonneg _ MARKETING_SPEND_TIERS (by decide)
  · exact le_refl 0

theorem rdAxis_nonneg (fin : FinancialMetrics) : 0 ≤ rdAxis fin := by
  rw [rdAxis]
  split
  · dsimp only
    split_ifs <;> norm_num
  · exact le_refl 0

/-- C6: with financial facts the qualification score is the capped sum
of the four independent axes and always lies in [0, 100]; a value
lying exactly at a tier threshold earns exactly that tier points on its
axis (shown for every revenue and employee tier and for the four
marketing and three R&D percentage boundaries against a revenue of
100); without any financial facts the score is min(5 times the
detected-technology count, 40), so exactly 3 technologies score 15. -/
theorem c6_qualification_score (fin : FinancialMetrics) (tech : Nat) :
    (0 ≤ calculate_qualification_score (some fin) tech ∧
      calculate_qualification_score (some fin) tech ≤ 100) ∧
    (0 ≤ calculate_qualification_score none tech ∧
      calculate_qualification_score none tech ≤ 100) ∧
    calculate_qualification_score none tech = min ((tech : Int) * 5) 40 ∧
    calculate_qualification_score none 3 = 15 ∧
    calculate_qualification_score (some fin) tech =
      min (revenueAxis fin + employeeAxis fin + marketingAxis fin +
        rdAxis fin) 100 ∧
    (∀ t p, (t, p) ∈ REVENUE_TIERS →
      calculate_qualification_score (some { revenue_usd := some t }) tech = p) ∧
    (∀ t p, (t, p) ∈ EMPLOYEE_TIERS →
      calculate_qualification_score
        (some { employee_count := some t }) tech = p) ∧
    (calculate_qualification_score
        (some { revenue_usd := some 100, marketing_spend_usd := some 20 })
        tech = 20 ∧
     calculate_qualification_score
        (some { revenue_usd := some 100, marketing_spend_usd := some 10 })
        tech = 15 ∧
     calculate_qualification_score
        (some { revenue_usd := some 100, marketing_spend_usd := some 5 })
        tech = 10 ∧
     calculate_qualification_score
        (some { revenue_usd := some 100, marketing_spend_usd := some 2 })
        tech = 5) ∧
    (calculate_qualification_score
        (some { revenue_usd := some 100, rd_spend_usd := some 20 }) tech = 15 ∧
     calculate_qualification_score
        (some { revenue_usd := some 100, rd_spend_usd := some 10 }) tech = 10 ∧
     calculate_qualification_score
        (some { revenue_usd := some 100, rd_spend_usd := some 5 }) tech = 5) := by
  refine ⟨⟨?_, ?_⟩, ⟨?_, ?_⟩, rfl, by decide, rfl, ?_, ?_, ?_, ?_⟩
  · rw [calculate_qualification_score]
    refine le_min ?_ (by norm_num)
    have h1 := revenueAxis_nonneg fin
    have h2 := employeeAxis_nonneg fin
    have h3 := marketingAxis_nonneg fin
    have h4 := rdAxis_nonneg fin
    omega
  · exact min_le_right _ _
  · rw [calculate_qualification_score]
    refine le_min ?_ (by norm_num)
    positivity
  · rw [calculate_qualification_score]
    have : min ((tech : Int) * 5) 40 ≤ 40 := min_le_right _ _
    omega
  · intro t p hmem
    fin_cases hmem <;>
      · rw [calculate_qualification_score]
        decide
  · intro t p hmem
    fin_cases hmem <;>
      · rw [calculate_qualification_score]
        decide
  · refine ⟨?_, ?_, ?_, ?_⟩ <;>
      · rw [calculate_qualification_score]
        norm_num [revenueAxis, employeeAxis, marketingAxis, rdAxis,
          pyTruthyInt, tierScore, ratioTierScore, REVENUE_TIERS,
          MARKETING_SPEND_TIERS]
  · refine ⟨?_, ?_, ?_⟩ <;>
      · rw [calculate_qualification_score]
        norm_num [revenueAxis, employeeAxis, marketingAxis, rdAxis,
          pyTruthyInt, tierScore, ratioTierScore, REVENUE_TIERS,
          MARKETING_SPEND_TIERS]

/-- C6 witness: a revenue of exactly one billion sits at the one
billion tier boundary of the table and scores exactly its 70 points. -/
theorem c6_qualification_score_witness :
    ((1000000000 : Int), (70 : Int)) ∈ REVENUE_TIERS ∧
    calculate_qualification_score
      (some { revenue_usd := some 1000000000 }) 0 = 70 := by
  refine ⟨by decide, ?_⟩
  exact (c6_qualification_score { revenue_usd := some 1000000000 } 0).2.2.2.2.2.1
    1000000000 70 (by decide)

theorem backoffRun_stop {α : Type} (f : Nat → Except PyExc α) (e : PyExc)
    (i : Nat) (h : f i = .error e)
    (hstop : (backoffRetryTarget e && !backoffGiveup e) = false) :
    ∀ fuel, 1 ≤ fuel → backoffRun f i fuel = (.error e, 1) := by
  intro fuel hfuel
  match fuel, hfuel with
  | 1, _ => simp [backoffRun, h]
  | (n + 2), _ =>
    rw [backoffRun, h]
    simp only [hstop, Bool.false_eq_true, if_false]

theorem backoffRun_ok {α : Type} (f : Nat → Except PyExc α) (b : α) (i : Nat)
    (h : f i = .ok b) :
    ∀ fuel, 1 ≤ fuel → backoffRun f i fuel = (.ok b, 1) := by
  intro fuel hfuel
  match fuel, hfuel with
  | 1, _ => simp [backoffRun, h]
  | (n + 2), _ => rw [backoffRun, h]

theorem backoffRun_persistent {α : Type} (f : Nat → Except PyExc α)
    (e : PyExc) (he : ∀ i, f i = .error e)
    (hr : (backoffRetryTarget e && !backoffGiveup e) = true) :
    ∀ fuel i, 1 ≤ fuel → backoffRun f i fuel = (.error e, fuel) := by
  intro fuel
  induction fuel with
  | zero => intro i h; omega
  | succ n ih =>
    intro i _
    match n, ih with
    | 0, _ => simp [backoffRun, he i]
    | (m + 1), ih =>
      rw [backoffRun, he i]
      simp only [hr, if_true]
      rw [ih (i + 1) (by omega)]

theorem backoffRun_retry_then {α : Type} (f : Nat → Except PyExc α)
    (e : PyExc) (b : α) (h0 : f 0 = .error e)
    (hr : (backoffRetryTarget e && !backoffGiveup e) = true)
    (h1 : f 1 = .ok b) :
    ∀ fuel, 2 ≤ fuel → backoffRun f 0 fuel = (.ok b, 2) := by
  intro fuel hfuel
  match fuel, hfuel with
  | (n + 2), _ =>
    rw [backoffRun, h0]
    simp only [hr, if_true]
    rw [backoffRun_ok f b 1 h1 (n + 1) (by omega)]

/-- C1 (amended): in the cache-miss request path, a 403 or a 429
response raises a RateLimitError (whose retryable attribute is true for
429 and false for 403), but the backoff wrapper gives up on it
immediately — RateLimitError is not in its retry tuple and is named in
its giveup predicate — so exactly one attempt is made, the same as for
the non-retryable 404 NotFoundError; only transport exceptions and
ServerError are retried, a persistent 500 consuming exactly the
configured maximum number of attempts and a 500 followed by a 200
succeeding on the second attempt. -/
theorem c1_request_retry {α : Type} (out : Nat → HTTPOutcome α) (mt : Nat)
    (url : Option (List Char)) (hmt : 1 ≤ mt) :
    (∀ m u,
      excRetryable (PyExc.rateLimitError m 429 u) = true ∧
      excRetryable (PyExc.rateLimitError m 403 u) = false ∧
      excRetryable (PyExc.notFoundError m u) = false ∧
      backoffGiveup (PyExc.rateLimitError m 429 u) = true ∧
      backoffGiveup (PyExc.rateLimitError m 403 u) = true ∧
      backoffGiveup (PyExc.notFoundError m u) = true ∧
      backoffRetryTarget (PyExc.rateLimitError m 429 u) = false ∧
      backoffRetryTarget (PyExc.notFoundError m u) = false) ∧
    (∀ b, out 0 = .status 403 b →
      make_request out mt url =
        (.error (.rateLimitError
          (strL "Rate limit exceeded or blocked by SEC") 403 url), 1)) ∧
    (∀ b, out 0 = .status 429 b →
      make_request out mt url =
        (.error (.rateLimitError
          (strL "Rate limit exceeded - too many requests") 429 url), 1)) ∧
    (∀ b, out 0 = .status 404 b →
      make_request out mt url =
        (.error (.notFoundError (strL "Resource not found") url), 1)) ∧
    ((∀ i, ∃ b, out i = .status 500 b) →
      make_request out mt url =
        (.error (.serverError (strL "SEC server error") (some 500) url), mt)) ∧
    (∀ b0 b1, out 0 = .status 500 b0 → out 1 = .status 200 b1 → 2 ≤ mt →
      make_request out mt url = (.ok b1, 2)) := by
  refine ⟨?_, ?_, ?_, ?_, ?_, ?_⟩
  · intro m u
    refine ⟨rfl, rfl, rfl, rfl, rfl, rfl, rfl, rfl⟩
  · intro b h0
    have hf : classifyResponse url (out 0) =
        .error (.rateLimitError
          (strL "Rate limit exceeded or blocked by SEC") 403 url) := by
      rw [h0]
      rfl
    exact backoffRun_stop (fun i => classifyResponse url (out i))
      (.rateLimitError (strL "Rate limit exceeded or blocked by SEC") 403 url)
      0 hf rfl mt hmt
  · intro b h0
    have hf : classifyResponse url (out 0) =
        .error (.rateLimitError
          (strL "Rate limit exceeded - too many requests") 429 url) := by
      rw [h0]
      rfl
    exact backoffRun_stop (fun i => classifyResponse url (out i))
      (.rateLimitError (strL "Rate limit exceeded - too many requests") 429 url)
      0 hf rfl mt hmt
  · intro b h0
    have hf : classifyResponse url (out 0) =
        .error (.notFoundError (strL "Resource not found") url) := by
      rw [h0]
      rfl
    exact backoffRun_stop (fun i => classifyResponse url (out i))
      (.notFoundError (strL "Resource not found") url)
      0 hf rfl mt hmt
  · intro hall
    have hf : ∀ i, classifyResponse url (out i) =
        .error (.serverError (strL "SEC server error") (some 500) url) := by
      intro i
      obtain ⟨b, hb⟩ := hall i
      rw [hb]
      rfl
    exact backoffRun_persistent (fun i => classifyResponse url (out i))
      (.serverError (strL "SEC server error") (some 500) url) hf rfl mt 0 hmt
  · intro b0 b1 h0 h1 h2
    have hf0 : classifyResponse url (out 0) =
        .error (.serverError (strL "SEC server error") (some 500) url) := by
      rw [h0]; rfl
    have hf1 : classifyResponse url (out 1) = .ok b1 := by
      rw [h1]; rfl
    exact backoffRun_retry_then (fun i => classifyResponse url (out i))
      (.serverError (strL "SEC server error") (some 500) url) b1 hf0 rfl hf1
      mt h2

/-- C1 witness: with a transport that always answers 500 and three
configured tries, the request is retried to exhaustion: exactly 3
attempts and a ServerError result. -/
theorem c1_request_retry_witness :
    (1 : Nat) ≤ 3 ∧
    make_request (fun _ => HTTPOutcome.status 500 ()) 3 none =
      (.error (.serverError (strL "SEC server error") (some 500) none), 3) := by
  refine ⟨by norm_num, ?_⟩
  exact (c1_request_retry (fun _ => HTTPOutcome.status 500 ()) 3 none
    (by norm_num)).2.2.2.2.1 (fun i => ⟨(), rfl⟩)

/-- C1 counterexample: the claim says a 429 response is retried under
the bounded backoff policy up to the configured attempts, but with
max tries 3 and a transport that always answers 429 the call makes
exactly one attempt — even though the raised RateLimitError carries
retryable = true — because the backoff wrapper gives up on
RateLimitError immediately. -/
theorem c1_request_retry_counterexample :
    make_request (fun _ => HTTPOutcome.status 429 ()) 3 none =
      (.error (.rateLimitError
        (strL "Rate limit exceeded - too many requests") 429 none), 1) ∧
    (make_request (fun _ => HTTPOutcome.status 429 ()) 3 none).2 ≠ 3 ∧
    excRetryable (.rateLimitError
      (strL "Rate limit exceeded - too many requests") 429 none) = true ∧
    make_request (fun _ => HTTPOutcome.status 403 ()) 3 none =
      (.error (.rateLimitError
        (strL "Rate limit exceeded or blocked by SEC") 403 none), 1) := by
  refine ⟨rfl, by decide, by decide, rfl⟩

theorem enrich_by_cik_dichotomy (cik : List Char) (ta : Option (List Char))
    (subs : Except PyExc SECEntityMetadataM)
    (facts : Except PyExc (FactsDict × FactsDict)) :
    ((enrich_by_cik cik ta subs facts).success = true ∧
     (enrich_by_cik cik ta subs facts).brand.isSome = true ∧
     (enrich_by_cik cik ta subs facts).error = none) ∨
    ((enrich_by_cik cik ta subs facts).success = false ∧
     (enrich_by_cik cik ta subs facts).brand = none ∧
     ∃ err, (enrich_by_cik cik ta subs facts).error = some err) := by
  rcases subs with e | em
  · cases e <;> exact Or.inr ⟨rfl, rfl, _, rfl⟩
  · exact Or.inl ⟨rfl, rfl, rfl⟩

/-- C2: each of the three top-level enrichment methods always returns
an EnrichmentResult that is either a success carrying a brand and no
error or a failure carrying no brand and a structured error (total
functions of the outcomes of their collaborators, so no exception
escapes); a NotFoundError from the submissions fetch is normalized to a
non-retryable not_found error with status 404, any other exception
there to a retryable enrichment_error, a resolver TickerNotFoundError
to a non-retryable ticker_not_found error, and a resolver
CompanyNotFoundError to a non-retryable company_not_found error. -/
theorem c2_enrichment_no_throw :
    (∀ (cik : List Char) (ta : Option (List Char))
       (subs : Except PyExc SECEntityMetadataM)
       (facts : Except PyExc (FactsDict × FactsDict)),
      (((enrich_by_cik cik ta subs facts).success = true ∧
        (enrich_by_cik cik ta subs facts).brand.isSome = true ∧
        (enrich_by_cik cik ta subs facts).error = none) ∨
       ((enrich_by_cik cik ta subs facts).success = false ∧
        (enrich_by_cik cik ta subs facts).brand = none ∧
        ∃ err, (enrich_by_cik cik ta subs facts).error = some err)) ∧
      (∀ m u, subs = .error (.notFoundError m u) →
        enrich_by_cik cik ta subs facts =
          failedResult (strL "not_found") m (some 404) u false) ∧
      (∀ e, subs = .error e → (∀ m u, e ≠ .notFoundError m u) →
        enrich_by_cik cik ta subs facts =
          failedResult (strL "enrichment_error") (excMessage e) none none
            true)) ∧
    (∀ (dir : NameDirectory) (t : List Char)
       (subsOf : List Char → Except PyExc SECEntityMetadataM)
       (factsOf : List Char → Except PyExc (FactsDict × FactsDict)),
      (((enrich_by_ticker dir t subsOf factsOf).success = true ∧
        (enrich_by_ticker dir t subsOf factsOf).brand.isSome = true ∧
        (enrich_by_ticker dir t subsOf factsOf).error = none) ∨
       ((enrich_by_ticker dir t subsOf factsOf).success = false ∧
        (enrich_by_ticker dir t subsOf factsOf).brand = none ∧
        ∃ err, (enrich_by_ticker dir t subsOf factsOf).error = some err)) ∧
      (∀ m, by_ticker dir (pyStrip (pyUpper t)) false (fun _ => none) =
          .error (.tickerNotFound m) →
        enrich_by_ticker dir t subsOf factsOf =
          failedResult (strL "ticker_not_found") m none none false)) ∧
    (∀ (fz : FuzzyOracle) (dir : NameDirectory) (name : List Char)
       (mc : Rat)
       (subsOf : List Char → Except PyExc SECEntityMetadataM)
       (factsOf : List Char → Except PyExc (FactsDict × FactsDict)),
      (((enrich_by_name fz dir name mc subsOf factsOf).success = true ∧
        (enrich_by_name fz dir name mc subsOf factsOf).brand.isSome = true ∧
        (enrich_by_name fz dir name mc subsOf factsOf).error = none) ∨
       ((enrich_by_name fz dir name mc subsOf factsOf).success = false ∧
        (enrich_by_name fz dir name mc subsOf factsOf).brand = none ∧
        ∃ err, (enrich_by_name fz dir name mc subsOf factsOf).error =
          some err)) ∧
      (∀ m, by_name fz dir (pyStrip name) 1 none =
          .error (.companyNotFound m) →
        enrich_by_name fz dir name mc subsOf factsOf =
          failedResult (strL "company_not_found") m none none false)) := by
  refine ⟨?_, ?_, ?_⟩
  · intro cik ta subs facts
    refine ⟨enrich_by_cik_dichotomy cik ta subs facts, ?_, ?_⟩
    · intro m u hs
      rw [hs]
      rfl
    · intro e hs hne
      rw [hs]
      cases e with
      | notFoundError m u => exact absurd rfl (hne m u)
      | rateLimitError m s u => rfl
      | serverError m s u => rfl
      | requestException m => rfl
      | tickerNotFound m => rfl
      | companyNotFound m => rfl
      | cikLookupError m => rfl
      | otherExc m => rfl
  · intro dir t subsOf factsOf
    constructor
    · rcases hbt : by_ticker dir (pyStrip (pyUpper t)) false (fun _ => none)
        with e | cik
      · cases e <;> · right
                      rw [enrich_by_ticker, hbt]
                      exact ⟨rfl, rfl, _, rfl⟩
      · rw [enrich_by_ticker, hbt]
        exact enrich_by_cik_dichotomy cik (some (pyStrip (pyUpper t)))
          (subsOf cik) (factsOf cik)
    · intro m hbt
      rw [enrich_by_ticker, hbt]
  · intro fz dir name mc subsOf factsOf
    constructor
    · rcases hbn : by_name fz dir (pyStrip name) 1 none with e | l
      · cases e <;> · right
                      rw [enrich_by_name, hbn]
                      exact ⟨rfl, rfl, _, rfl⟩
      · rcases l with _ | ⟨best, rest⟩
        · right
          rw [enrich_by_name, hbn]
          exact ⟨rfl, rfl, _, rfl⟩
        · rw [enrich_by_name, hbn]
          dsimp only
          by_cases hsc : best.match_score < mc
          · right
            rw [if_pos hsc]
            exact ⟨rfl, rfl, _, rfl⟩
          · rw [if_neg hsc]
            have hd := enrich_by_cik_dichotomy best.cik (some best.ticker)
              (subsOf best.cik) (factsOf best.cik)
            set r := enrich_by_cik best.cik (some best.ticker)
              (subsOf best.cik) (factsOf best.cik) with hr
            by_cases hmod : (r.success && r.brand.isSome &&
                decide (best.match_type ≠ strL "exact")) = true
            · rw [if_pos hmod]
              rcases hd with ⟨hsucc, hbr, herr⟩ | ⟨hsucc, hbr, herr⟩
              · left
                refine ⟨hsucc, ?_, herr⟩
                rcases hb : r.brand with _ | b
                · rw [hb] at hbr; simp at hbr
                · simp [hb]
              · rw [hsucc] at hmod
                simp at hmod
            · rw [if_neg hmod]
              exact hd
    · intro m hbn
      rw [enrich_by_name, hbn]

/-- C2 witness: a submissions fetch failing with NotFoundError is
normalized to a failed result with error type not_found, status 404 and
retryable false, and the failure dichotomy holds at that input. -/
theorem c2_enrichment_no_throw_witness :
    enrich_by_cik (strL "0000000001") none
        (.error (.notFoundError (strL "gone") none))
        (.error (.otherExc [])) =
      failedResult (strL "not_found") (strL "gone") (some 404) none false := by
  exact (c2_enrichment_no_throw.1 (strL "0000000001") none
    (.error (.notFoundError (strL "gone") none))
    (.error (.otherExc []))).2.1 (strL "gone") none rfl

theorem foldl_mem_of_step {γ δ : Type} (step : List γ → δ → List γ)
    (Q : γ → Prop)
    (hstep : ∀ acc x m, m ∈ step acc x → m ∈ acc ∨ Q m) :
    ∀ (l : List δ) (acc : List γ), ∀ m ∈ l.foldl step acc, m ∈ acc ∨ Q m := by
  intro l
  induction l with
  | nil => intro acc m hm; exact Or.inl hm
  | cons x xs ih =>
    intro acc m hm
    rw [List.foldl_cons] at hm
    rcases ih (step acc x) m hm with h1 | h2
    · exact hstep acc x m h1
    · exact Or.inr h2

theorem foldl_extends {γ δ : Type} (step : List γ → δ → List γ)
    (hstep : ∀ acc x, step acc x = acc ∨ ∃ y, step acc x = acc ++ [y]) :
    ∀ (l : List δ) (acc : List γ), ∃ tail, l.foldl step acc = acc ++ tail := by
  intro l
  induction l with
  | nil => intro acc; exact ⟨[], by simp⟩
  | cons x xs ih =>
    intro acc
    rw [List.foldl_cons]
    rcases hstep acc x with h | ⟨y, hy⟩
    · rw [h]; exact ih acc
    · rw [hy]
      obtain ⟨t, ht⟩ := ih (acc ++ [y])
      exact ⟨y :: t, by simpa using ht⟩

theorem foldl_pairwise_cik {δ : Type}
    (step : List CompanyMatch → δ → List CompanyMatch)
    (hstep : ∀ acc x, step acc x = acc ∨
      ∃ y, step acc x = acc ++ [y] ∧ ∀ m ∈ acc, m.cik ≠ y.cik) :
    ∀ (l : List δ) (acc : List CompanyMatch),
      List.Pairwise (fun a b => a.cik ≠ b.cik) acc →
      List.Pairwise (fun a b => a.cik ≠ b.cik) (l.foldl step acc) := by
  intro l
  induction l with
  | nil => intro acc h; exact h
  | cons x xs ih =>
    intro acc h
    rw [List.foldl_cons]
    apply ih
    rcases hstep acc x with h1 | ⟨y, hy, hne⟩
    · rw [h1]; exact h
    · rw [hy, List.pairwise_append]
      refine ⟨h, List.pairwise_singleton _ _, ?_⟩
      intro a ha b hb
      rw [List.mem_singleton.mp hb]
      exact hne a ha

theorem fuzzyRawStep_cases (fz : FuzzyOracle) (dir : NameDirectory)
    (sn : List Char) (ms : Rat) (acc : List CompanyMatch) (x : List Char) :
    fuzzyRawStep fz dir sn ms acc x = acc ∨
    ∃ y, fuzzyRawStep fz dir sn ms acc x = acc ++ [y] ∧
      (∀ m ∈ acc, m.cik ≠ y.cik) ∧
      ∃ s, ms ≤ s ∧ y.match_score = pyRound s 3 ∧
        y.match_type = strL "fuzzy" := by
  rcases hf : dir.company_names.find? (fun p => p.2 = x) with _ | p
  · left
    simp [fuzzyRawStep, hf]
  · by_cases ha : acc.any (fun m => m.cik = p.1) = true
    · left
      simp [fuzzyRawStep, hf, ha]
    · by_cases hs : ms ≤ fz.similarity (pyLower sn) (pyLower x)
      · right
        refine ⟨⟨p.1, assocFindD dir.cik_to_ticker p.1 [], x,
            pyRound (fz.similarity (pyLower sn) (pyLower x)) 3,
            strL "fuzzy"⟩, ?_, ?_,
          ⟨fz.similarity (pyLower sn) (pyLower x), hs, rfl, rfl⟩⟩
        · simp [fuzzyRawStep, hf, ha, hs]
        · intro m hm heq
          apply ha
          rw [List.any_eq_true]
          exact ⟨m, hm, by simpa using heq⟩
      · left
        simp [fuzzyRawStep, hf, ha, hs]

theorem fuzzyNormStep_cases (fz : FuzzyOracle) (dir : NameDirectory)
    (ns : List Char) (ms : Rat) (acc : List CompanyMatch) (x : List Char) :
    fuzzyNormStep fz dir ns ms acc x = acc ∨
    ∃ y, fuzzyNormStep fz dir ns ms acc x = acc ++ [y] ∧
      (∀ m ∈ acc, m.cik ≠ y.cik) ∧
      ∃ s, ms ≤ s ∧ y.match_score = pyRound s 3 ∧
        y.match_type = strL "fuzzy_normalized" := by
  rcases hf : assocFind dir.name_to_cik x with _ | cik
  · left
    simp [fuzzyNormStep, hf]
  · by_cases ha : acc.any (fun m => m.cik = cik) = true
    · left
      simp [fuzzyNormStep, hf, ha]
    · by_cases hs : ms ≤ fz.similarity ns x
      · right
        refine ⟨⟨cik, assocFindD dir.cik_to_ticker cik [],
            assocFindD dir.company_names cik [],
            pyRound (fz.similarity ns x) 3, strL "fuzzy_normalized"⟩, ?_, ?_,
          ⟨fz.similarity ns x, hs, rfl, rfl⟩⟩
        · simp [fuzzyNormStep, hf, ha, hs]
        · intro m hm heq
          apply ha
          rw [List.any_eq_true]
          exact ⟨m, hm, by simpa using heq⟩
      · left
        simp [fuzzyNormStep, hf, ha, hs]

theorem exactMatches_pairwise (dir : NameDirectory) (sn : List Char) :
    List.Pairwise (fun a b => a.cik ≠ b.cik) (exactMatches dir sn) := by
  rw [exactMatches]
  rcases h : dir.company_names.find? (fun p => pyLower p.2 = pyLower sn)
    with _ | p <;> simp [h]

theorem normalizedMatches_pairwise (dir : NameDirectory) (ns : List Char) :
    List.Pairwise (fun a b => a.cik ≠ b.cik) (normalizedMatches dir ns) := by
  rw [normalizedMatches]
  rcases h : assocFind dir.name_to_cik ns with _ | cik <;> simp [h]

theorem byNameCandidates_pairwise (fz : FuzzyOracle) (dir : NameDirectory)
    (q : List Char) (limit : Nat) (ms : Rat) :
    List.Pairwise (fun a b => a.cik ≠ b.cik)
      (byNameCandidates fz dir q limit ms) := by
  rw [byNameCandidates]
  set b := (if (exactMatches dir q).isEmpty then
    normalizedMatches dir (normalize_name q) else exactMatches dir q) with hb
  have hbp : List.Pairwise (fun a b : CompanyMatch => a.cik ≠ b.cik) b := by
    rw [hb]
    split
    · exact normalizedMatches_pairwise dir _
    · exact exactMatches_pairwise dir q
  set c := (if b.length < limit then
    (fz.close_matches q (dir.company_names.map (fun p => p.2)) (limit * 2)
      (ms * 0.8)).foldl (fuzzyRawStep fz dir q ms) b
    else b) with hc
  have hcp : List.Pairwise (fun a b : CompanyMatch => a.cik ≠ b.cik) c := by
    rw [hc]
    split
    · refine foldl_pairwise_cik _ ?_ _ _ hbp
      intro acc x
      rcases fuzzyRawStep_cases fz dir q ms acc x with h | ⟨y, hy, hne, _⟩
      · exact Or.inl h
      · exact Or.inr ⟨y, hy, hne⟩
    · exact hbp
  split
  · refine foldl_pairwise_cik _ ?_ _ _ hcp
    intro acc x
    rcases fuzzyNormStep_cases fz dir (normalize_name q) ms acc x
      with h | ⟨y, hy, hne, _⟩
    · exact Or.inl h
    · exact Or.inr ⟨y, hy, hne⟩
  · exact hcp

theorem byNameCandidates_mem (fz : FuzzyOracle) (dir : NameDirectory)
    (q : List Char) (limit : Nat) (ms : Rat) :
    ∀ m ∈ byNameCandidates fz dir q limit ms,
      (m.match_score = 1 ∧ m.match_type = strL "exact") ∨
      (m.match_score = 0.95 ∧ m.match_type = strL "normalized") ∨
      (∃ s, ms ≤ s ∧ m.match_score = pyRound s 3 ∧
        (m.match_type = strL "fuzzy" ∨
         m.match_type = strL "fuzzy_normalized")) := by
  intro m hm
  rw [byNameCandidates] at hm
  set b := (if (exactMatches dir q).isEmpty then
    normalizedMatches dir (normalize_name q) else exactMatches dir q) with hb
  have hbase : ∀ m2 ∈ b,
      (m2.match_score = 1 ∧ m2.match_type = strL "exact") ∨
      (m2.match_score = 0.95 ∧ m2.match_type = strL "normalized") ∨
      (∃ s, ms ≤ s ∧ m2.match_score = pyRound s 3 ∧
        (m2.match_type = strL "fuzzy" ∨
         m2.match_type = strL "fuzzy_normalized")) := by
    intro m2 hm2
    rw [hb] at hm2
    split at hm2
    · rw [normalizedMatches] at hm2
      rcases hfn : assocFind dir.name_to_cik (normalize_name q) with _ | cik
      · rw [hfn] at hm2
        simp at hm2
      · rw [hfn] at hm2
        rw [List.mem_singleton.mp hm2]
        exact Or.inr (Or.inl ⟨rfl, rfl⟩)
    · rw [exactMatches] at hm2
      rcases hfe : dir.company_names.find? (fun p => pyLower p.2 = pyLower q)
        with _ | p
      · rw [hfe] at hm2
        simp at hm2
      · rw [hfe] at hm2
        rw [List.mem_singleton.mp hm2]
        exact Or.inl ⟨rfl, rfl⟩
  have hQraw : ∀ (acc : List CompanyMatch) (x : List Char)
      (m2 : CompanyMatch), m2 ∈ fuzzyRawStep fz dir q ms acc x →
      m2 ∈ acc ∨ (∃ s, ms ≤ s ∧ m2.match_score = pyRound s 3 ∧
        (m2.match_type = strL "fuzzy" ∨
         m2.match_type = strL "fuzzy_normalized")) := by
    intro acc x m2 hm2
    rcases fuzzyRawStep_cases fz dir q ms acc x
      with h | ⟨y, hy, _, s, hs, hsc, hty⟩
    · rw [h] at hm2; exact Or.inl hm2
    · rw [hy] at hm2
      rcases List.mem_append.mp hm2 with h1 | h2
      · exact Or.inl h1
      · rw [List.mem_singleton.mp h2]
        exact Or.inr ⟨s, hs, hsc, Or.inl hty⟩
  have hQnorm : ∀ (acc : List CompanyMatch) (x : List Char)
      (m2 : CompanyMatch),
      m2 ∈ fuzzyNormStep fz dir (normalize_name q) ms acc x →
      m2 ∈ acc ∨ (∃ s, ms ≤ s ∧ m2.match_score = pyRound s 3 ∧
        (m2.match_type = strL "fuzzy" ∨
         m2.match_type = strL "fuzzy_normalized")) := by
    intro acc x m2 hm2
    rcases fuzzyNormStep_cases fz dir (normalize_name q) ms acc x
      with h | ⟨y, hy, _, s, hs, hsc, hty⟩
    · rw [h] at hm2; exact Or.inl hm2
    · rw [hy] at hm2
      rcases List.mem_append.mp hm2 with h1 | h2
      · exact Or.inl h1
      · rw [List.mem_singleton.mp h2]
        exact Or.inr ⟨s, hs, hsc, Or.inr hty⟩
  set c := (if b.length < limit then
    (fz.close_matches q (dir.company_names.map (fun p => p.2)) (limit * 2)
      (ms * 0.8)).foldl (fuzzyRawStep fz dir q ms) b
    else b) with hc
  have hcm : ∀ m2 ∈ c,
      (m2.match_score = 1 ∧ m2.match_type = strL "exact") ∨
      (m2.match_score = 0.95 ∧ m2.match_type = strL "normalized") ∨
      (∃ s, ms ≤ s ∧ m2.match_score = pyRound s 3 ∧
        (m2.match_type = strL "fuzzy" ∨
         m2.match_type = strL "fuzzy_normalized")) := by
    intro m2 hm2
    rw [hc] at hm2
    split at hm2
    · rcases foldl_mem_of_step _ _ hQraw _ _ m2 hm2 with h1 | h2
      · exact hbase m2 h1
      · exact Or.inr (Or.inr h2)
    · exact hbase m2 hm2
  split at hm
  · rcases foldl_mem_of_step _ _ hQnorm _ _ m hm with h1 | h2
    · exact hcm m h1
    · exact Or.inr (Or.inr h2)
  · exact hcm m hm

theorem byNameCandidates_head_exact (fz : FuzzyOracle) (dir : NameDirectory)
    (q : List Char) (limit : Nat) (ms : Rat) (p : List Char × List Char)
    (hf : dir.company_names.find? (fun r => pyLower r.2 = pyLower q) =
      some p) :
    (byNameCandidates fz dir q limit ms).head? =
      some { cik := p.1, ticker := assocFindD dir.cik_to_ticker p.1 [],
             company_name := p.2, match_score := 1,
             match_type := strL "exact" } := by
  have hext1 : ∀ (l : List (List Char)) (acc : List CompanyMatch),
      ∃ tail, l.foldl (fuzzyRawStep fz dir q ms) acc = acc ++ tail := by
    apply foldl_extends
    intro acc x
    rcases fuzzyRawStep_cases fz dir q ms acc x with h | ⟨y, hy, _, _⟩
    · exact Or.inl h
    · exact Or.inr ⟨y, hy⟩
  have hext2 : ∀ (l : List (List Char)) (acc : List CompanyMatch),
      ∃ tail, l.foldl (fuzzyNormStep fz dir (normalize_name q) ms) acc =
        acc ++ tail := by
    apply foldl_extends
    intro acc x
    rcases fuzzyNormStep_cases fz dir (normalize_name q) ms acc x
      with h | ⟨y, hy, _, _⟩
    · exact Or.inl h
    · exact Or.inr ⟨y, hy⟩
  have h1 : exactMatches dir q =
      [{ cik := p.1, ticker := assocFindD dir.cik_to_ticker p.1 [],
         company_name := p.2, match_score := 1,
         match_type := strL "exact" }] := by
    rw [exactMatches, hf]
  rw [byNameCandidates, h1]
  simp only [List.isEmpty_cons, Bool.false_eq_true, if_false]
  set e : CompanyMatch :=
    { cik := p.1, ticker := assocFindD dir.cik_to_ticker p.1 [],
      company_name := p.2, match_score := 1, match_type := strL "exact" }
  obtain ⟨t1, ht1⟩ : ∃ t1, (if ([e] : List CompanyMatch).length < limit then
      (fz.close_matches q (dir.company_names.map (fun r => r.2)) (limit * 2)
        (ms * 0.8)).foldl (fuzzyRawStep fz dir q ms) [e]
    else [e]) = e :: t1 := by
    split
    · obtain ⟨t, ht⟩ := hext1 _ [e]
      exact ⟨t, by simpa using ht⟩
    · exact ⟨[], rfl⟩
  rw [ht1]
  split
  · obtain ⟨t2, ht2⟩ := hext2 _ (e :: t1)
    rw [ht2]
    rfl
  · rfl

theorem byNameCandidates_head_normalized (fz : FuzzyOracle)
    (dir : NameDirectory) (q : List Char) (limit : Nat) (ms : Rat)
    (cik : List Char)
    (hf : dir.company_names.find? (fun r => pyLower r.2 = pyLower q) = none)
    (hn : assocFind dir.name_to_cik (normalize_name q) = some cik) :
    (byNameCandidates fz dir q limit ms).head? =
      some { cik := cik, ticker := assocFindD dir.cik_to_ticker cik [],
             company_name := assocFindD dir.company_names cik [],
             match_score := 0.95, match_type := strL "normalized" } := by
  have hext1 : ∀ (l : List (List Char)) (acc : List CompanyMatch),
      ∃ tail, l.foldl (fuzzyRawStep fz dir q ms) acc = acc ++ tail := by
    apply foldl_extends
    intro acc x
    rcases fuzzyRawStep_cases fz dir q ms acc x with h | ⟨y, hy, _, _⟩
    · exact Or.inl h
    · exact Or.inr ⟨y, hy⟩
  have hext2 : ∀ (l : List (List Char)) (acc : List CompanyMatch),
      ∃ tail, l.foldl (fuzzyNormStep fz dir (normalize_name q) ms) acc =
        acc ++ tail := by
    apply foldl_extends
    intro acc x
    rcases fuzzyNormStep_cases fz dir (normalize_name q) ms acc x
      with h | ⟨y, hy, _, _⟩
    · exact Or.inl h
    · exact Or.inr ⟨y, hy⟩
  have h1 : exactMatches dir q = [] := by
    rw [exactMatches, hf]
  have h2 : normalizedMatches dir (normalize_name q) =
      [{ cik := cik, ticker := assocFindD dir.cik_to_ticker cik [],
         company_name := assocFindD dir.company_names cik [],
         match_score := 0.95, match_type := strL "normalized" }] := by
    rw [normalizedMatches, hn]
  rw [byNameCandidates, h1]
  simp only [List.isEmpty_nil, if_true]
  rw [h2]
  set e : CompanyMatch :=
    { cik := cik, ticker := assocFindD dir.cik_to_ticker cik [],
      company_name := assocFindD dir.company_names cik [],
      match_score := 0.95, match_type := strL "normalized" }
  obtain ⟨t1, ht1⟩ : ∃ t1, (if ([e] : List CompanyMatch).length < limit then
      (fz.close_matches q (dir.company_names.map (fun r => r.2)) (limit * 2)
        (ms * 0.8)).foldl (fuzzyRawStep fz dir q ms) [e]
    else [e]) = e :: t1 := by
    split
    · obtain ⟨t, ht⟩ := hext1 _ [e]
      exact ⟨t, by simpa using ht⟩
    · exact ⟨[], rfl⟩
  rw [ht1]
  split
  · obtain ⟨t2, ht2⟩ := hext2 _ (e :: t1)
    rw [ht2]
    rfl
  · rfl

theorem by_name_ok_inv (fz : FuzzyOracle) (dir : NameDirectory)
    (name : List Char) (limit : Nat) (ms : Option Rat)
    (l : List CompanyMatch) (h : by_name fz dir name limit ms = .ok l) :
    pyStrip name ≠ [] ∧
    l = (sortDescBy (fun m => m.match_score)
      (byNameCandidates fz dir (pyStrip name) limit
        (resolveMinScore ms))).take limit ∧
    l ≠ [] := by
  rw [by_name] at h
  by_cases h1 : pyStrip name = []
  · rw [if_pos h1] at h
    simp at h
  · rw [if_neg h1] at h
    by_cases h2 : (sortDescBy (fun m => m.match_score)
        (byNameCandidates fz dir (pyStrip name) limit
          (resolveMinScore ms))).take limit = []
    · rw [if_pos h2] at h
      simp at h
    · rw [if_neg h2] at h
      have hl : l = (sortDescBy (fun m => m.match_score)
          (byNameCandidates fz dir (pyStrip name) limit
            (resolveMinScore ms))).take limit := by
        cases h
        rfl
      exact ⟨h1, hl, by rw [hl]; exact h2⟩

theorem by_name_err_inv (fz : FuzzyOracle) (dir : NameDirectory)
    (name : List Char) (limit : Nat) (ms : Option Rat) (e : PyExc)
    (h : by_name fz dir name limit ms = .error e) :
    ∃ m, e = .companyNotFound m := by
  rw [by_name] at h
  by_cases h1 : pyStrip name = []
  · rw [if_pos h1] at h
    cases h
    exact ⟨_, rfl⟩
  · rw [if_neg h1] at h
    by_cases h2 : (sortDescBy (fun m => m.match_score)
        (byNameCandidates fz dir (pyStrip name) limit
          (resolveMinScore ms))).take limit = []
    · rw [if_pos h2] at h
      cases h
      exact ⟨_, rfl⟩
    · rw [if_neg h2] at h
      simp at h

theorem by_name_ok_of_candidates (fz : FuzzyOracle) (dir : NameDirectory)
    (name : List Char) (limit : Nat) (ms : Option Rat)
    (h1 : pyStrip name ≠ [])
    (h2 : byNameCandidates fz dir (pyStrip name) limit
      (resolveMinScore ms) ≠ [])
    (h3 : 1 ≤ limit) :
    ∃ l, by_name fz dir name limit ms = .ok l := by
  have hlen : (sortDescBy (fun m => m.match_score)
      (byNameCandidates fz dir (pyStrip name) limit
        (resolveMinScore ms))).length =
      (byNameCandidates fz dir (pyStrip name) limit
        (resolveMinScore ms)).length :=
    (sortDescBy_perm _ _).length_eq
  have hsne : (sortDescBy (fun m => m.match_score)
      (byNameCandidates fz dir (pyStrip name) limit
        (resolveMinScore ms))) ≠ [] := by
    intro hnil
    apply h2
    have := hlen
    rw [hnil] at this
    exact List.length_eq_zero.mp this.symm
  have htne : (sortDescBy (fun m => m.match_score)
      (byNameCandidates fz dir (pyStrip name) limit
        (resolveMinScore ms))).take limit ≠ [] := by
    intro hnil
    rw [List.take_eq_nil_iff] at hnil
    rcases hnil with h0 | hnil2
    · omega
    · exact hsne hnil2
  rw [by_name, if_neg h1, if_neg htne]
  exact ⟨_, rfl⟩

theorem by_name_err_of_candidates_nil (fz : FuzzyOracle)
    (dir : NameDirectory) (name : List Char) (limit : Nat) (ms : Option Rat)
    (h1 : pyStrip name ≠ [])
    (h2 : byNameCandidates fz dir (pyStrip name) limit
      (resolveMinScore ms) = []) :
    by_name fz dir name limit ms =
      .error (.companyNotFound (strL "No companies found matching")) := by
  rw [by_name, if_neg h1]
  simp [h2, sortDescBy]

/-- C7 (amended): by_name returns a nonempty list truncated to limit,
sorted by score descending and deduplicated by canonical id, and fails
exactly with CompanyNotFoundError, precisely when no candidate cleared
the threshold (for a nonempty query and positive limit); the passes run
conditionally — the candidate list starts with the exact
case-insensitive full-name match at score 1.0 when one exists, starts
with the normalized match at score 0.95 only when the exact pass found
nothing, and otherwise contains only approximate candidates whose
(unrounded) similarity is at or above the threshold; pass candidates
skipped because earlier passes already met the limit are never
reconsidered, which is the amendment forced by the counterexample. -/
theorem c7_resolve_by_name (fz : FuzzyOracle) (dir : NameDirectory)
    (name : List Char) (limit : Nat) (ms : Option Rat) :
    (∀ l, by_name fz dir name limit ms = .ok l →
      l ≠ [] ∧ l.length ≤ limit ∧
      List.Pairwise (fun a b => b.match_score ≤ a.match_score) l ∧
      List.Pairwise (fun a b => a.cik ≠ b.cik) l) ∧
    (∀ e, by_name fz dir name limit ms = .error e →
      ∃ m, e = .companyNotFound m) ∧
    (pyStrip name ≠ [] → 1 ≤ limit →
      ((∃ l, by_name fz dir name limit ms = .ok l) ↔
        byNameCandidates fz dir (pyStrip name) limit
          (resolveMinScore ms) ≠ [])) ∧
    (∀ p, dir.company_names.find?
        (fun r => pyLower r.2 = pyLower (pyStrip name)) = some p →
      (byNameCandidates fz dir (pyStrip name) limit
          (resolveMinScore ms)).head? =
        some { cik := p.1, ticker := assocFindD dir.cik_to_ticker p.1 [],
               company_name := p.2, match_score := 1,
               match_type := strL "exact" }) ∧
    (∀ cik, dir.company_names.find?
        (fun r => pyLower r.2 = pyLower (pyStrip name)) = none →
      assocFind dir.name_to_cik (normalize_name (pyStrip name)) = some cik →
      (byNameCandidates fz dir (pyStrip name) limit
          (resolveMinScore ms)).head? =
        some { cik := cik, ticker := assocFindD dir.cik_to_ticker cik [],
               company_name := assocFindD dir.company_names cik [],
               match_score := 0.95, match_type := strL "normalized" }) ∧
    (∀ m ∈ byNameCandidates fz dir (pyStrip name) limit
        (resolveMinScore ms),
      (m.match_score = 1 ∧ m.match_type = strL "exact") ∨
      (m.match_score = 0.95 ∧ m.match_type = strL "normalized") ∨
      (∃ s, resolveMinScore ms ≤ s ∧ m.match_score = pyRound s 3 ∧
        (m.match_type = strL "fuzzy" ∨
         m.match_type = strL "fuzzy_normalized"))) := by
  refine ⟨?_, by_name_err_inv fz dir name limit ms, ?_,
    byNameCandidates_head_exact fz dir (pyStrip name) limit
      (resolveMinScore ms),
    byNameCandidates_head_normalized fz dir (pyStrip name) limit
      (resolveMinScore ms),
    byNameCandidates_mem fz dir (pyStrip name) limit (resolveMinScore ms)⟩
  · intro l hok
    obtain ⟨h1, hl, hne⟩ := by_name_ok_inv fz dir name limit ms l hok
    refine ⟨hne, ?_, ?_, ?_⟩
    · rw [hl, List.length_take]
      exact min_le_left _ _
    · rw [hl]
      exact List.Pairwise.sublist (List.take_sublist _ _)
        (sortDescBy_pairwise _ _)
    · rw [hl]
      refine List.Pairwise.sublist (List.take_sublist _ _) ?_
      have hperm := sortDescBy_perm (fun m : CompanyMatch => m.match_score)
        (byNameCandidates fz dir (pyStrip name) limit (resolveMinScore ms))
      exact (List.Perm.pairwise_iff (fun h => h.symm) hperm).mpr
        (byNameCandidates_pairwise fz dir (pyStrip name) limit
          (resolveMinScore ms))
  · intro h1 h3
    constructor
    · intro ⟨l, hok⟩ hnil
      obtain ⟨_, hl, hne⟩ := by_name_ok_inv fz dir name limit ms l hok
      apply hne
      rw [hl, hnil]
      simp [sortDescBy]
    · intro h2
      exact by_name_ok_of_candidates fz dir name limit ms h1 h2 h3

/-- C7 witness: on the AB1 directory (one company named AB1) the query
ab1 has an exact case-insensitive match, so by_name succeeds with the
single exact candidate at score 1.0; all hypotheses of the claim are
discharged by evaluation. -/
theorem c7_resolve_by_name_witness :
    by_name fzNone cexDirT (strL "ab1") 1 none =
      .ok [{ cik := strL "0000000002", ticker := [],
             company_name := strL "AB1", match_score := 1,
             match_type := strL "exact" }] ∧
    ([{ cik := strL "0000000002", ticker := [],
        company_name := strL "AB1", match_score := 1,
        match_type := strL "exact" }] : List CompanyMatch) ≠ [] ∧
    (byNameCandidates fzNone cexDirT (pyStrip (strL "ab1")) 1
        (resolveMinScore none)).head? =
      some { cik := strL "0000000002", ticker := [],
             company_name := strL "AB1", match_score := 1,
             match_type := strL "exact" } := by
  have hbn : by_name fzNone cexDirT (strL "ab1") 1 none =
      .ok [{ cik := strL "0000000002", ticker := [],
             company_name := strL "AB1", match_score := 1,
             match_type := strL "exact" }] := by
    norm_num +decide [by_name, byNameCandidates, fuzzyRawStep, fuzzyNormStep,
      exactMatches, normalizedMatches, fzNone, cexDirT, resolveMinScore,
      MIN_MATCH_SCORE, pyStrip, pyLower, strL, normalize_name, assocFind,
      assocFindD, sortDescBy, insertDescBy, legal_suffixes, stripOneSuffix,
      splitWhitespace, List.find?, List.foldl]
  refine ⟨hbn, ?_, ?_⟩
  · exact ((c7_resolve_by_name fzNone cexDirT (strL "ab1") 1 none).1 _
      hbn).1
  · have hfind : cexDirT.company_names.find?
        (fun r => pyLower r.2 = pyLower (pyStrip (strL "ab1"))) =
        some (strL "0000000002", strL "AB1") := by decide
    have h := (c7_resolve_by_name fzNone cexDirT (strL "ab1") 1
      none).2.2.2.1 (strL "0000000002", strL "AB1") hfind
    simpa using h

set_option maxRecDepth 16000 in
/-- C7 counterexample: on a directory with companies Acme Corporation
Inc and Acme Corporatio (difflib similarity values hardcoded in the
collaborator), the query Acme Corporation with limit 1 hits the
normalized pass first (score 0.95, cik 1), and because the limit is
already met the approximate passes are skipped; the claim as stated
merges all three passes, under which the fuzzy candidate for cik 2
(similarity 30/31, rounded 0.968) outranks it, so the returned company
differs. -/
theorem c7_resolve_by_name_counterexample :
    by_name cexFuzzy cexDir (strL "Acme Corporation") 1 none =
      .ok [{ cik := strL "0000000001", ticker := [],
             company_name := strL "Acme Corporation Inc",
             match_score := 0.95, match_type := strL "normalized" }] ∧
    by_name_spec cexFuzzy cexDir (strL "Acme Corporation") 1 none =
      .ok [{ cik := strL "0000000002", ticker := [],
             company_name := strL "Acme Corporatio",
             match_score := 121/125, match_type := strL "fuzzy" }] ∧
    (strL "0000000001" : List Char) ≠ strL "0000000002" := by
  refine ⟨?_, ?_, by decide⟩
  · norm_num +decide [by_name, byNameCandidates, fuzzyRawStep, fuzzyNormStep,
      exactMatches, normalizedMatches, cexFuzzy, cexDir, resolveMinScore,
      MIN_MATCH_SCORE, pyStrip, pyLower, strL, normalize_name, assocFind,
      assocFindD, sortDescBy, insertDescBy, pyRound, roundHalfEven,
      legal_suffixes, stripOneSuffix, splitWhitespace, List.find?,
      List.foldl]
  · norm_num +decide [by_name_spec, byNameSpecCandidates, fuzzyRawStep,
      fuzzyNormStep, cexFuzzy, cexDir, resolveMinScore,
      MIN_MATCH_SCORE, pyStrip, pyLower, strL, normalize_name, assocFind,
      assocFindD, sortDescBy, insertDescBy, pyRound, roundHalfEven,
      legal_suffixes, stripOneSuffix, splitWhitespace, List.find?,
      List.foldl]

/-- C8 (amended): resolve dispatches by the is_likely_ticker heuristic
— at most five characters, alphanumeric, and uppercase in the Python
sense (at least one cased character and none lowercase), not fully
uppercase alphabetic — trying ticker-likely identifiers (when
prefer_ticker is set) as a ticker first with a name-search fallback and
every other identifier as a name first with a ticker fallback; for a
nonempty identifier the call succeeds exactly when at least one of the
two routes succeeds. -/
theorem c8_resolve_dispatch (fz : FuzzyOracle) (dir : NameDirectory)
    (identifier : List Char) (pt : Bool) :
    (pyStrip identifier = [] →
      resolve fz dir identifier pt =
        .error (.cikLookupError (strL "Empty identifier"))) ∧
    (pyStrip identifier ≠ [] →
      (is_likely_ticker (pyStrip identifier) && pt) = true →
      (∀ cik,
        by_ticker dir (pyStrip identifier) false (fun _ => none) = .ok cik →
        resolve fz dir identifier pt =
          .ok (tickerMatch dir (pyStrip identifier) cik)) ∧
      (∀ e m l,
        by_ticker dir (pyStrip identifier) false (fun _ => none) =
          .error e →
        by_name fz dir (pyStrip identifier) 1 none = .ok (m :: l) →
        resolve fz dir identifier pt = .ok m)) ∧
    (pyStrip identifier ≠ [] →
      (is_likely_ticker (pyStrip identifier) && pt) = false →
      (∀ m l,
        by_name fz dir (pyStrip identifier) 1 none = .ok (m :: l) →
        resolve fz dir identifier pt = .ok m) ∧
      (∀ e cik,
        by_name fz dir (pyStrip identifier) 1 none = .error e →
        by_ticker dir (pyStrip identifier) false (fun _ => none) = .ok cik →
        resolve fz dir identifier pt =
          .ok (tickerMatch dir (pyStrip identifier) cik))) ∧
    (pyStrip identifier ≠ [] →
      ((∃ m, resolve fz dir identifier pt = .ok m) ↔
        (∃ cik, by_ticker dir (pyStrip identifier) false (fun _ => none) =
          .ok cik) ∨
        (∃ m l, by_name fz dir (pyStrip identifier) 1 none =
          .ok (m :: l)))) := by
  refine ⟨?_, ?_, ?_, ?_⟩
  · intro h0
    simp [resolve, h0]
  · intro h0 hlik
    constructor
    · intro cik hbt
      simp only [resolve]
      rw [if_neg h0, if_pos hlik, hbt]
    · intro e m l hbt hbn
      simp only [resolve]
      rw [if_neg h0, if_pos hlik, hbt, hbn]
  · intro h0 hlik
    constructor
    · intro m l hbn
      simp only [resolve]
      rw [if_neg h0, if_neg (by simp [hlik]), hbn]
    · intro e cik hbn hbt
      simp only [resolve]
      rw [if_neg h0, if_neg (by simp [hlik]), hbn, hbt]
  · intro h0
    simp only [resolve]
    rw [if_neg h0]
    by_cases hl : (is_likely_ticker (pyStrip identifier) && pt) = true
    · rw [if_pos hl]
      constructor
      · intro ⟨m, hm⟩
        rcases hbt : by_ticker dir (pyStrip identifier) false
            (fun _ => none) with e | cik
        · rw [hbt] at hm
          rcases hbn : by_name fz dir (pyStrip identifier) 1 none
              with e2 | l2
          · rw [hbn] at hm
            simp at hm
          · rcases l2 with _ | ⟨m2, t2⟩
            · rw [hbn] at hm
              simp at hm
            · exact Or.inr ⟨m2, t2, rfl⟩
        · exact Or.inl ⟨cik, rfl⟩
      · intro hdisj
        rcases hdisj with ⟨cik, hbt⟩ | ⟨m, l, hbn⟩
        · rw [hbt]
          exact ⟨_, rfl⟩
        · rcases hbt : by_ticker dir (pyStrip identifier) false
            (fun _ => none) with e | cik
          · rw [hbn]
            exact ⟨m, rfl⟩
          · exact ⟨_, rfl⟩
    · rw [if_neg hl]
      constructor
      · intro ⟨m, hm⟩
        rcases hbn : by_name fz dir (pyStrip identifier) 1 none
            with e2 | l2
        · rw [hbn] at hm
          rcases hbt : by_ticker dir (pyStrip identifier) false
              (fun _ => none) with e | cik
          · rw [hbt] at hm
            simp at hm
          · exact Or.inl ⟨cik, rfl⟩
        · rcases l2 with _ | ⟨m2, t2⟩
          · rw [hbn] at hm
            rcases hbt : by_ticker dir (pyStrip identifier) false
                (fun _ => none) with e | cik
            · rw [hbt] at hm
              simp at hm
            · exact Or.inl ⟨cik, rfl⟩
          · exact Or.inr ⟨m2, t2, rfl⟩
      · intro hdisj
        rcases hbn : by_name fz dir (pyStrip identifier) 1 none
            with e2 | l2
        · rcases hdisj with ⟨cik, hbt⟩ | ⟨m, l, hbn2⟩
          · rw [hbt]
            exact ⟨_, rfl⟩
          · rw [hbn2] at hbn
            simp at hbn
        · rcases l2 with _ | ⟨m2, t2⟩
          · rcases hdisj with ⟨cik, hbt⟩ | ⟨m, l, hbn2⟩
            · rw [hbt]
              exact ⟨_, rfl⟩
            · rw [hbn2] at hbn
              simp at hbn
          · exact ⟨m2, rfl⟩

/-- C8 witness: AB1 with prefer_ticker set is ticker-likely and
present in the ticker table, so resolve takes the ticker route; all
hypotheses of the claim are discharged by evaluation. -/
theorem c8_resolve_dispatch_witness :
    (pyStrip (strL "AB1") ≠ [] ∧
      (is_likely_ticker (pyStrip (strL "AB1")) && true) = true ∧
      by_ticker cexDirT (pyStrip (strL "AB1")) false (fun _ => none) =
        .ok (strL "0000000001")) ∧
    resolve fzNone cexDirT (strL "AB1") true =
      .ok (tickerMatch cexDirT (pyStrip (strL "AB1"))
        (strL "0000000001")) :=
  ⟨⟨by decide, by decide, by rfl⟩,
   ((c8_resolve_dispatch fzNone cexDirT (strL "AB1") true).2.1
     (by decide) (by decide)).1 (strL "0000000001") (by rfl)⟩

/-- C8 counterexample: AB1 is alphanumeric and uppercase but not fully
alphabetic, so the code heuristic marks it ticker-likely while the
claim heuristic does not; on a directory where AB1 is both a listed
ticker (cik 1) and the exact name of another company (cik 2), resolve
takes the ticker route and returns cik 1, whereas under the claim
wording the name route wins and returns cik 2. -/
theorem c8_resolve_dispatch_counterexample :
    is_likely_ticker (strL "AB1") = true ∧
    is_likely_ticker_spec (strL "AB1") = false ∧
    resolve fzNone cexDirT (strL "AB1") true =
      .ok { cik := strL "0000000001", ticker := strL "AB1",
            company_name := [], match_score := 1,
            match_type := strL "ticker" } ∧
    resolve_spec fzNone cexDirT (strL "AB1") true =
      .ok { cik := strL "0000000002", ticker := [],
            company_name := strL "AB1", match_score := 1,
            match_type := strL "exact" } ∧
    (strL "0000000001" : List Char) ≠ strL "0000000002" := by
  refine ⟨by decide, by decide, ?_, ?_, by decide⟩
  · norm_num +decide [resolve, is_likely_ticker, by_ticker, tickerMatch,
      fzNone, cexDirT, pyStrip, pyUpper, pyLower, pyIsAlnum, pyIsUpper,
      strL, assocFind, assocFindD, List.find?]
  · norm_num +decide [resolve_spec, is_likely_ticker_spec, by_name,
      byNameCandidates, fuzzyRawStep, fuzzyNormStep, exactMatches,
      normalizedMatches, fzNone, cexDirT, resolveMinScore, MIN_MATCH_SCORE,
      pyStrip, pyLower, strL, normalize_name, assocFind, assocFindD,
      sortDescBy, insertDescBy, legal_suffixes, stripOneSuffix,
      splitWhitespace, List.find?, List.foldl]

/-- C10: enrich_by_name defaults min_confidence to 0.8 while the
resolver fuzzy threshold (min_score or MIN_MATCH_SCORE) defaults to
0.6; whenever the resolver returns a best match scoring below
min_confidence, enrich_by_name with the default returns a failed
result with non-retryable error type low_confidence whose value does
not depend on the entity-fetch collaborators (so no entity data is
fetched); concretely, a best match scoring 0.7 — inside [0.6, 0.8) —
resolves at the resolver layer yet fails enrichment. -/
theorem c10_low_confidence_default :
    MIN_MATCH_SCORE = 3/5 ∧ resolveMinScore none = 3/5 ∧
    DEFAULT_MIN_CONFIDENCE = 4/5 ∧ (3/5 : Rat) < 4/5 ∧
    (∀ (fz : FuzzyOracle) (dir : NameDirectory) (name : List Char)
       (best : CompanyMatch) (rest : List CompanyMatch),
      by_name fz dir (pyStrip name) 1 none = .ok (best :: rest) →
      best.match_score < DEFAULT_MIN_CONFIDENCE →
      ∀ (subsOf : List Char → Except PyExc SECEntityMetadataM)
        (factsOf : List Char → Except PyExc (FactsDict × FactsDict)),
        enrich_by_name fz dir name DEFAULT_MIN_CONFIDENCE subsOf factsOf =
          failedResult (strL "low_confidence")
            (strL "Best match has low confidence") none none false) ∧
    by_name cexFuzzyLow cexDirLow (strL "Foq") 1 none =
      .ok [{ cik := strL "0000000009", ticker := strL "FOO",
             company_name := strL "Foo", match_score := 7/10,
             match_type := strL "fuzzy" }] ∧
    (3/5 : Rat) ≤ 7/10 ∧ (7/10 : Rat) < 4/5 ∧
    (∀ (subsOf : List Char → Except PyExc SECEntityMetadataM)
       (factsOf : List Char → Except PyExc (FactsDict × FactsDict)),
      enrich_by_name cexFuzzyLow cexDirLow (strL "Foq")
          DEFAULT_MIN_CONFIDENCE subsOf factsOf =
        failedResult (strL "low_confidence")
          (strL "Best match has low confidence") none none false) := by
  have hbn : by_name cexFuzzyLow cexDirLow (strL "Foq") 1 none =
      .ok [{ cik := strL "0000000009", ticker := strL "FOO",
             company_name := strL "Foo", match_score := 7/10,
             match_type := strL "fuzzy" }] := by
    norm_num +decide [by_name, byNameCandidates, fuzzyRawStep,
      fuzzyNormStep, exactMatches, normalizedMatches, cexFuzzyLow, cexDirLow,
      resolveMinScore, MIN_MATCH_SCORE, pyStrip, pyLower, strL,
      normalize_name, assocFind, assocFindD, sortDescBy, insertDescBy,
      pyRound, roundHalfEven, legal_suffixes, stripOneSuffix,
      splitWhitespace, List.find?, List.foldl]
  have hmain : ∀ (fz : FuzzyOracle) (dir : NameDirectory) (name : List Char)
      (best : CompanyMatch) (rest : List CompanyMatch),
      by_name fz dir (pyStrip name) 1 none = .ok (best :: rest) →
      best.match_score < DEFAULT_MIN_CONFIDENCE →
      ∀ (subsOf : List Char → Except PyExc SECEntityMetadataM)
        (factsOf : List Char → Except PyExc (FactsDict × FactsDict)),
        enrich_by_name fz dir name DEFAULT_MIN_CONFIDENCE subsOf factsOf =
          failedResult (strL "low_confidence")
            (strL "Best match has low confidence") none none false := by
    intro fz dir name best rest hby hlt subsOf factsOf
    rw [enrich_by_name, hby]
    dsimp only
    rw [if_pos hlt]
  refine ⟨by norm_num [MIN_MATCH_SCORE], by norm_num [resolveMinScore,
      MIN_MATCH_SCORE], by norm_num [DEFAULT_MIN_CONFIDENCE], by norm_num,
    hmain, hbn, by norm_num, by norm_num, ?_⟩
  intro subsOf factsOf
  have hstrip : pyStrip (strL "Foq") = strL "Foq" := by decide
  refine hmain cexFuzzyLow cexDirLow (strL "Foq")
    { cik := strL "0000000009", ticker := strL "FOO",
      company_name := strL "Foo", match_score := 7/10,
      match_type := strL "fuzzy" } [] ?_ ?_ subsOf factsOf
  · rw [hstrip]
    exact hbn
  · norm_num [DEFAULT_MIN_CONFIDENCE]

/-- C10 witness: the general low-confidence normalization applied at
the concrete directory: the resolver hypotheses are discharged by
evaluation and the enrichment fails with low_confidence for an
arbitrary pair of fetch collaborators. -/
theorem c10_low_confidence_default_witness :
    enrich_by_name cexFuzzyLow cexDirLow (strL "Foq")
        DEFAULT_MIN_CONFIDENCE (fun _ => .error (.otherExc []))
        (fun _ => .error (.otherExc [])) =
      failedResult (strL "low_confidence")
        (strL "Best match has low confidence") none none false := by
  exact c10_low_confidence_default.2.2.2.2.2.2.2.2
    (fun _ => .error (.otherExc [])) (fun _ => .error (.otherExc []))

/-- C5 witness: on the concrete 100-then-110 history the sorted
decomposition and positive-baseline hypotheses hold and yield the
rounded growth formula at 110 against 100. -/
theorem c5_metrics_extractor_witness :
    (extract_financial_metrics cexRevFacts []).revenue_growth_yoy =
      some (pyRound ((((110 : Int) : Rat) - ((100 : Int) : Rat)) /
        ((100 : Int) : Rat) * 100) 2) := by
  have h := (c5_metrics_extractor cexRevFacts []).2.2.2.2.2.1
    { fp := strL "FY", end_date := 20240928, val := 110, fy := 2024 }
    { fp := strL "FY", end_date := 20230930, val := 100, fy := 2023 }
    [] (by decide)
  exact h.2 (by norm_num)

end MScan
